import Mathlib

/-
Verification development for the Voice-Agent appointment-scheduling backend.

The definitions below are a shallow embedding of the TypeScript source:
  - src/shared/schema.ts      (data model, the fixed slot catalog)
  - src/server/storage.ts     (DatabaseStorage: the booking store, here an
                               in-memory state record; the Postgres tables
                               become Lean lists, serial ids become explicit
                               counters)
  - src/server/voiceAgent.ts  (executeToolCall and generateCallSummary; the
                               LLM extraction step of the summarizer is an
                               explicit input, since it is an external
                               collaborator)
  - src/server/routes.ts      (the identify_user / set_user_name cases of the
                               /api/bey/tool-execute handler)

JavaScript dynamic values reaching the tool layer (tool arguments parsed from
LLM JSON) are modelled by the small `JVal` type, with JS truthiness and strict
equality modelled explicitly, so that behaviour on missing or malformed
arguments is captured faithfully (including the TypeError thrown by
`undefined.replace`). Database writes of non-string values are rendered via
their JS string form at the NOT NULL text columns. JSON serialization of the
session snapshots (`JSON.stringify`) is abstracted to structured fields.
-/

namespace VoiceAgent

/-- A JavaScript value as it can appear in a tool-argument bag. -/
inductive JVal where
  | str : String → JVal
  | num : Int → JVal
  | undef : JVal
deriving Repr, DecidableEq

/-- JS truthiness of a `JVal` (empty string, 0 and undefined are falsy). -/
def jTruthy : JVal → Bool
  | JVal.str s => s != ""
  | JVal.num n => n != 0
  | JVal.undef => false

/-- JS string rendering (template-literal interpolation). -/
def jvalToString : JVal → String
  | JVal.str s => s
  | JVal.num n => toString n
  | JVal.undef => "undefined"

/-- JS strict equality `v === s` between a dynamic value and a string. -/
def jvalEqStr (v : JVal) (s : String) : Bool :=
  match v with
  | JVal.str a => a == s
  | _ => false

/-- JS strict equality `v === n` between a dynamic value and a numeric id. -/
def jvalEqNat (v : JVal) (n : Nat) : Bool :=
  match v with
  | JVal.num m => m == Int.ofNat n
  | _ => false

/-- An argument bag: property access on a JS object, absent keys read as
undefined. -/
abbrev Args := List (String × JVal)

/-- Property lookup `args.key` on an argument bag. -/
def getArg (args : Args) (k : String) : JVal :=
  match args.find? (fun p => p.1 == k) with
  | some p => p.2
  | none => JVal.undef

/-- JS truthiness of an optional string (null/undefined and "" are falsy). -/
def jsStrTruthy : Option String → Bool
  | some s => s != ""
  | none => false

/-- JS `a || b` on optional strings (falsy `a` falls through to `b`). -/
def jsOrOptStr (a b : Option String) : Option String :=
  if jsStrTruthy a then a else b

/-- JS `a || d` with a string default. -/
def jsOrDefault (a : Option String) (d : String) : String :=
  match a with
  | some s => if s == "" then d else s
  | none => d

/-- JS `x || undefined` on an optional string (empty string becomes absent). -/
def jsStrOpt (o : Option String) : Option String :=
  if jsStrTruthy o then o else none

/-- JS truthiness of a numeric id field (`!context.userId`): absent or 0 is
falsy.  Returns the usable id when truthy. -/
def jsUserId : Option Nat → Option Nat
  | some n => if n == 0 then none else some n
  | none => none

/-- `phone.replace(/\D/g, "")`: keep only the digits of a string. -/
def digitsOnlyOf (s : String) : String :=
  String.mk (s.toList.filter (fun c => c.isDigit))

/-- `s.padStart(2, '0')`. -/
def padStart2 (s : String) : String :=
  String.mk (List.replicate (2 - s.length) '0') ++ s

/-- Character-wise lowercasing (JS `toLowerCase` on the ASCII strings the
core handles). -/
def toLowerStr (s : String) : String :=
  String.mk (s.toList.map Char.toLower)

/-- Character-wise uppercasing (JS `toUpperCase`). -/
def toUpperStr (s : String) : String :=
  String.mk (s.toList.map Char.toUpper)

/-- JS `trim`: strip whitespace from both ends. -/
def trimStr (s : String) : String :=
  String.mk (((s.toList.dropWhile Char.isWhitespace).reverse.dropWhile
    Char.isWhitespace).reverse)

/-- Whether `sub` occurs at the start of `l`. -/
def startsWithL (sub : List Char) : List Char → Bool
  | l =>
    match sub, l with
    | [], _ => true
    | _ :: _, [] => false
    | b :: bs, a :: as => a == b && startsWithL bs as

/-- Whether `sub` occurs somewhere in `l`. -/
def containsSubL (sub : List Char) : List Char → Bool
  | [] => startsWithL sub []
  | c :: t => startsWithL sub (c :: t) || containsSubL sub t

/-- Substring occurrence test (used to state "the result text contains ..."). -/
def containsSub (s sub : String) : Bool :=
  containsSubL sub.toList s.toList

/-- A user row (src/shared/schema.ts `users`). -/
structure User where
  id : Nat
  phoneNumber : String
  name : Option String
deriving Repr, DecidableEq

/-- An appointment row (src/shared/schema.ts `appointments`). -/
structure Appointment where
  id : Nat
  userId : Nat
  date : String
  time : String
  description : Option String
  status : String
deriving Repr, DecidableEq

/-- The appointment view returned by the call summarizer. -/
structure SummaryAppt where
  id : Nat
  date : String
  time : String
  description : Option String
  status : String
deriving Repr, DecidableEq

/-- A call-session row (src/shared/schema.ts `callSessions`).  The
JSON-serialized snapshot columns are modelled structurally. -/
structure CallSession where
  id : Nat
  userId : Option Nat
  phoneNumber : Option String
  status : String
  transcript : Option String
  summary : Option String
  bookedAppointmentsSnap : List SummaryAppt
  userPreferencesSnap : List String
deriving Repr, DecidableEq

/-- A catalog slot (src/shared/schema.ts `availableSlots` entries). -/
structure Slot where
  date : String
  time : String
deriving Repr, DecidableEq

/-- The whole booking store: the database tables plus the serial-id
counters. -/
structure Store where
  users : List User
  appointments : List Appointment
  sessions : List CallSession
  nextUserId : Nat
  nextApptId : Nat
deriving Repr, DecidableEq

/-- The in-memory conversation context (src/server/voiceAgent.ts
`ConversationContext`). -/
structure ConversationContext where
  sessionId : Nat
  userId : Option Nat
  phoneNumber : Option String
  userName : Option String
  messages : List (String × String)
deriving Repr, DecidableEq

/-- The value returned by `executeToolCall`, together with the store it
leaves behind. -/
structure ToolOutcome where
  result : String
  context : ConversationContext
  endCall : Bool
  store : Store
deriving Repr, DecidableEq

/-- The fixed slot catalog (src/shared/schema.ts `availableSlots`). -/
def availableSlots : List Slot :=
  [ ⟨"2026-01-28", "09:00 AM"⟩,
    ⟨"2026-01-28", "10:00 AM"⟩,
    ⟨"2026-01-28", "02:00 PM"⟩,
    ⟨"2026-01-28", "03:00 PM"⟩,
    ⟨"2026-01-29", "09:00 AM"⟩,
    ⟨"2026-01-29", "11:00 AM"⟩,
    ⟨"2026-01-29", "01:00 PM"⟩,
    ⟨"2026-01-29", "04:00 PM"⟩,
    ⟨"2026-01-30", "10:00 AM"⟩,
    ⟨"2026-01-30", "02:00 PM"⟩,
    ⟨"2026-01-30", "03:30 PM"⟩,
    ⟨"2026-01-31", "09:00 AM"⟩,
    ⟨"2026-01-31", "11:30 AM"⟩,
    ⟨"2026-01-31", "02:00 PM"⟩,
    ⟨"2026-02-01", "10:00 AM"⟩,
    ⟨"2026-02-01", "01:00 PM"⟩,
    ⟨"2026-02-01", "03:00 PM"⟩ ]

/-- `DatabaseStorage.getUser`. -/
def getUser (store : Store) (id : Nat) : Option User :=
  store.users.find? (fun u => u.id == id)

/-- `DatabaseStorage.getUserByPhoneNumber`. -/
def getUserByPhoneNumber (store : Store) (phone : String) : Option User :=
  store.users.find? (fun u => u.phoneNumber == phone)

/-- `DatabaseStorage.createUser` (serial id assignment). -/
def createUser (store : Store) (phone : String) (name : Option String) :
    User × Store :=
  let u : User := ⟨store.nextUserId, phone, name⟩
  (u, { store with users := store.users ++ [u],
                   nextUserId := store.nextUserId + 1 })

/-- `DatabaseStorage.updateUser` with a `{ name }` patch (the only patch the
core uses). -/
def updateUserName (store : Store) (id : Nat) (name : String) : Store :=
  { store with users :=
      store.users.map (fun u => if u.id == id then { u with name := some name } else u) }

/-- `DatabaseStorage.getAppointment`. -/
def getAppointment (store : Store) (id : Nat) : Option Appointment :=
  store.appointments.find? (fun a => a.id == id)

/-- `getAppointment` applied to a raw JS id argument (`eq(appointments.id, v)`
matches only a numeric value). -/
def getAppointmentJ (store : Store) (v : JVal) : Option Appointment :=
  store.appointments.find? (fun a => jvalEqNat v a.id)

/-- `DatabaseStorage.getAppointmentsByUser` (ordered newest-created-first:
the reverse of insertion order). -/
def getAppointmentsByUser (store : Store) (userId : Nat) : List Appointment :=
  (store.appointments.filter (fun a => a.userId == userId)).reverse

/-- `DatabaseStorage.createAppointment` (serial id assignment). -/
def createAppointment (store : Store) (userId : Nat) (date time : String)
    (description : Option String) (status : String) : Appointment × Store :=
  let a : Appointment := ⟨store.nextApptId, userId, date, time, description, status⟩
  (a, { store with appointments := store.appointments ++ [a],
                   nextApptId := store.nextApptId + 1 })

/-- `DatabaseStorage.updateAppointment` with a `{ date, time, status }` patch
(the modify_appointment write). -/
def updateApptDateTimeStatus (store : Store) (id : Nat) (date time status : String) :
    Store :=
  { store with appointments :=
      store.appointments.map (fun a =>
        if a.id == id then { a with date := date, time := time, status := status } else a) }

/-- `DatabaseStorage.updateAppointment` with a `{ status }` patch (the
summarizer's cancellation write). -/
def setApptStatus (store : Store) (id : Nat) (status : String) : Store :=
  { store with appointments :=
      store.appointments.map (fun a =>
        if a.id == id then { a with status := status } else a) }

/-- `DatabaseStorage.cancelAppointment`: set status to cancelled, return the
updated row (or none when the id does not exist). -/
def cancelAppointment (store : Store) (id : Nat) : Option Appointment × Store :=
  let store' := setApptStatus store id "cancelled"
  (getAppointment store' id, store')

/-- `DatabaseStorage.getBookedSlots`: the (date, time) pairs of all
non-cancelled appointments, across all users. -/
def getBookedSlots (store : Store) : List (String × String) :=
  (store.appointments.filter (fun a => a.status != "cancelled")).map
    (fun a => (a.date, a.time))

/-- `DatabaseStorage.getCallSession`. -/
def getCallSession (store : Store) (id : Nat) : Option CallSession :=
  store.sessions.find? (fun s => s.id == id)

/-- `DatabaseStorage.updateCallSession` with a `{ userId, phoneNumber }` patch
(the identify_user write). -/
def updateCallSessionUserPhone (store : Store) (sid uid : Nat) (phone : String) :
    Store :=
  { store with sessions :=
      store.sessions.map (fun s =>
        if s.id == sid then { s with userId := some uid, phoneNumber := some phone } else s) }

/-- `DatabaseStorage.endCallSession`: set status ended, store summary,
snapshots and transcript. -/
def endCallSession (store : Store) (sid : Nat) (summary : String)
    (booked : List SummaryAppt) (prefs : List String) (transcript : Option String) :
    Store :=
  { store with sessions :=
      store.sessions.map (fun s =>
        if s.id == sid then
          { s with status := "ended", summary := some summary,
                   bookedAppointmentsSnap := booked,
                   userPreferencesSnap := prefs,
                   transcript := transcript }
        else s) }

/-- The anchored match of `/^(\d{1,2}):(\d{2})\s*(AM|PM|am|pm)?$/i` against a
time string: the hour digits (1 or 2 of them, immediately followed by a
colon), the two minute digits, and the optionally matched case-insensitive
AM/PM marker ("" when absent after trailing whitespace). -/
def matchTimeParts (s : String) : Option (String × String × String) :=
  let cs := s.toList
  let hs := cs.takeWhile Char.isDigit
  if hs.length == 0 || hs.length > 2 then none
  else
    match cs.drop hs.length with
    | ':' :: m1 :: m2 :: rest =>
      if m1.isDigit && m2.isDigit then
        match rest.dropWhile Char.isWhitespace with
        | [] => some (String.mk hs, String.mk [m1, m2], "")
        | [c1, c2] =>
          if (c1 == 'a' || c1 == 'A' || c1 == 'p' || c1 == 'P') &&
             (c2 == 'm' || c2 == 'M') then
            some (String.mk hs, String.mk [m1, m2], String.mk [c1, c2])
          else none
        | _ => none
      else none
    | _ => none

/-- src/server/voiceAgent.ts `normalizeTime`: zero-pad the hour and uppercase
the AM/PM marker; strings the regex rejects are lowercased and trimmed. -/
def normalizeTime (time : String) : String :=
  match matchTimeParts time with
  | none => trimStr (toLowerStr time)
  | some (h, m, p) =>
      trimStr (padStart2 h ++ ":" ++ m ++ " " ++ toUpperStr p)

/-- Description suffix used by the booking confirmation text
(`description ? ...` is a JS truthiness test). -/
def descSuffix (d : Option String) : String :=
  match d with
  | some s => if s == "" then "" else s!" Description: {s}"
  | none => ""

/-- The raw `description` argument as stored by `createAppointment` (a
non-string value is rendered at the NOT NULL text boundary). -/
def jvalDescOpt (v : JVal) : Option String :=
  match v with
  | JVal.str s => some s
  | JVal.num n => some (toString n)
  | JVal.undef => none

/-- Per-appointment fragment of the identify_user appointment listing. -/
def apptListEntry (a : Appointment) : String :=
  let base := s!"{a.date} at {a.time}"
  match a.description with
  | some d => if d == "" then base else base ++ s!" for {d}"
  | none => base

/-- `list.join("; ")`. -/
def joinSemi (xs : List String) : String :=
  String.intercalate "; " xs

/-- The identify_user case of `executeToolCall`
(src/server/voiceAgent.ts lines 182-229).  The only tool case that can throw:
`phoneNumber.replace` raises a TypeError when `phone_number` is missing or not
a string. -/
def identifyUserTool (args : Args) (context : ConversationContext)
    (store : Store) : Except String ToolOutcome :=
  match getArg args "phone_number" with
  | JVal.str phoneNumber =>
    let digitsOnly := digitsOnlyOf phoneNumber
    if digitsOnly.length > 10 then
      Except.ok ⟨s!"I heard {phoneNumber}, but that seems to have more than 10 digits. Could you please repeat your phone number slowly?",
        context, false, store⟩
    else if digitsOnly.length < 10 then
      Except.ok ⟨s!"I heard {phoneNumber}, but that seems to have fewer than 10 digits. Could you please repeat your complete phone number?",
        context, false, store⟩
    else
      let formattedPhone :=
        digitsOnly.take 3 ++ "-" ++ (digitsOnly.drop 3).take 3 ++ "-" ++ digitsOnly.drop 6
      match getUserByPhoneNumber store digitsOnly with
      | none =>
        let (user, store1) := createUser store digitsOnly none
        let result := s!"Just to confirm, your phone number is {formattedPhone}. I've created a new account for you. You don't have any appointments scheduled yet. Would you like to book an appointment?"
        let context1 : ConversationContext :=
          { context with userId := some user.id, phoneNumber := some digitsOnly,
                         userName := jsStrOpt user.name }
        let store2 := updateCallSessionUserPhone store1 context.sessionId user.id digitsOnly
        Except.ok ⟨result, context1, false, store2⟩
      | some user =>
        let appointments := getAppointmentsByUser store user.id
        let active := appointments.filter (fun a => a.status != "cancelled")
        let appointmentInfo :=
          if active.length == 0 then
            "You don't have any appointments scheduled."
          else
            let list := joinSemi (active.map apptListEntry)
            let plural := if active.length > 1 then "s" else ""
            let n := active.length
            s!"You have {n} appointment{plural}: {list}."
        let nameBit :=
          match user.name with
          | some nm => if nm == "" then "" else s!" {nm}"
          | none => ""
        let result := s!"Just to confirm, your phone number is {formattedPhone}. Welcome back{nameBit}! {appointmentInfo} Would you like to book a new appointment, or modify or cancel an existing one?"
        let context1 : ConversationContext :=
          { context with userId := some user.id, phoneNumber := some digitsOnly,
                         userName := jsStrOpt user.name }
        let store2 := updateCallSessionUserPhone store context.sessionId user.id digitsOnly
        Except.ok ⟨result, context1, false, store2⟩
  | v => Except.error s!"TypeError: cannot read replace of {jvalToString v}"

/-- The fetch_slots case of `executeToolCall`
(src/server/voiceAgent.ts lines 231-251). -/
def fetchSlotsTool (args : Args) (context : ConversationContext)
    (store : Store) : ToolOutcome :=
  let dateFilter := getArg args "date"
  let bookedKeys := (getBookedSlots store).map (fun s => s.1 ++ "-" ++ s.2)
  let available0 := availableSlots.filter
    (fun slot => !(bookedKeys.contains (slot.date ++ "-" ++ slot.time)))
  let available :=
    if jTruthy dateFilter then available0.filter (fun slot => jvalEqStr dateFilter slot.date)
    else available0
  let result :=
    if available.length == 0 then
      if jTruthy dateFilter then
        let df := jvalToString dateFilter
        s!"No available slots on {df}. Would you like to check another date?"
      else
        "No available slots at the moment. Please check back later."
    else
      let slotList := String.intercalate ", "
        ((available.take 5).map (fun s => s!"{s.date} at {s.time}"))
      let more :=
        if available.length > 5 then
          let k := available.length - 5
          s!" and {k} more"
        else ""
      s!"Available slots: {slotList}{more}."
  ⟨result, context, false, store⟩

/-- The book_appointment case of `executeToolCall`
(src/server/voiceAgent.ts lines 253-287). -/
def bookAppointmentTool (args : Args) (context : ConversationContext)
    (store : Store) : ToolOutcome :=
  match jsUserId context.userId with
  | none =>
    ⟨"Please provide your phone number first so I can identify you before booking.",
      context, false, store⟩
  | some uid =>
    let dateV := getArg args "date"
    let timeV := getArg args "time"
    let descV := getArg args "description"
    let bookedSlots := getBookedSlots store
    let isSlotTaken := bookedSlots.any
      (fun s => jvalEqStr dateV s.1 && jvalEqStr timeV s.2)
    let ds := jvalToString dateV
    let ts := jvalToString timeV
    if isSlotTaken then
      ⟨s!"Sorry, the slot on {ds} at {ts} is already booked. Would you like to pick another time?",
        context, false, store⟩
    else
      match availableSlots.find? (fun s => jvalEqStr dateV s.date && jvalEqStr timeV s.time) with
      | none =>
        ⟨s!"Sorry, {ds} at {ts} is not an available slot. Let me show you what's available.",
          context, false, store⟩
      | some slot =>
        let (appointment, store1) :=
          createAppointment store uid slot.date slot.time (jvalDescOpt descV) "scheduled"
        let aid := appointment.id
        let suffix := descSuffix (jvalDescOpt descV)
        ⟨s!"Appointment booked successfully for {ds} at {ts}. Your appointment ID is {aid}.{suffix}",
          context, false, store1⟩

/-- The retrieve_appointments case of `executeToolCall`
(src/server/voiceAgent.ts lines 289-307). -/
def retrieveAppointmentsTool (context : ConversationContext)
    (store : Store) : ToolOutcome :=
  match jsUserId context.userId with
  | none =>
    ⟨"Please provide your phone number first so I can look up your appointments.",
      context, false, store⟩
  | some uid =>
    let appointments := getAppointmentsByUser store uid
    let active := appointments.filter (fun a => a.status != "cancelled")
    if active.length == 0 then
      ⟨"You don't have any appointments scheduled.", context, false, store⟩
    else
      let entry := fun (a : Appointment) =>
        let base := s!"ID {a.id}: {a.date} at {a.time} ({a.status})"
        match a.description with
        | some d => if d == "" then base else base ++ s!" - {d}"
        | none => base
      let list := joinSemi (active.map entry)
      ⟨s!"Your appointments: {list}", context, false, store⟩

/-- The cancel_appointment case of `executeToolCall`
(src/server/voiceAgent.ts lines 309-336). -/
def cancelAppointmentTool (args : Args) (context : ConversationContext)
    (store : Store) : ToolOutcome :=
  match jsUserId context.userId with
  | none => ⟨"Please provide your phone number first.", context, false, store⟩
  | some uid =>
    let apptIdV := getArg args "appointment_id"
    let idS := jvalToString apptIdV
    match getAppointmentJ store apptIdV with
    | none => ⟨s!"Appointment {idS} not found.", context, false, store⟩
    | some appointment =>
      if appointment.userId != uid then
        ⟨"You can only cancel your own appointments.", context, false, store⟩
      else if appointment.status == "cancelled" then
        ⟨"This appointment is already cancelled.", context, false, store⟩
      else
        let store1 := (cancelAppointment store appointment.id).2
        ⟨s!"Appointment {idS} on {appointment.date} at {appointment.time} has been cancelled.",
          context, false, store1⟩

/-- The modify_appointment case of `executeToolCall`
(src/server/voiceAgent.ts lines 338-387).  Note the self-exclusion in the
availability re-check compares (date, time) with the appointment's own current
values, not the appointment id. -/
def modifyAppointmentTool (args : Args) (context : ConversationContext)
    (store : Store) : ToolOutcome :=
  match jsUserId context.userId with
  | none => ⟨"Please provide your phone number first.", context, false, store⟩
  | some uid =>
    let apptIdV := getArg args "appointment_id"
    let newDateV := getArg args "new_date"
    let newTimeV := getArg args "new_time"
    if !(jTruthy newDateV) && !(jTruthy newTimeV) then
      ⟨"Please specify what you'd like to change - the date, time, or both.",
        context, false, store⟩
    else
      let idS := jvalToString apptIdV
      match getAppointmentJ store apptIdV with
      | none => ⟨s!"Appointment {idS} not found.", context, false, store⟩
      | some appointment =>
        if appointment.userId != uid then
          ⟨"You can only modify your own appointments.", context, false, store⟩
        else
          let targetDateV := if jTruthy newDateV then newDateV else JVal.str appointment.date
          let targetTimeV := if jTruthy newTimeV then newTimeV else JVal.str appointment.time
          let bookedSlots := getBookedSlots store
          let isSlotTaken := bookedSlots.any (fun s =>
            jvalEqStr targetDateV s.1 && jvalEqStr targetTimeV s.2 &&
            !(s.1 == appointment.date && s.2 == appointment.time))
          let td := jvalToString targetDateV
          let tt := jvalToString targetTimeV
          if isSlotTaken then
            ⟨s!"Sorry, {td} at {tt} is already booked.", context, false, store⟩
          else
            let store1 := updateApptDateTimeStatus store appointment.id td tt "scheduled"
            ⟨s!"Appointment {idS} has been rescheduled to {td} at {tt}.",
              context, false, store1⟩

/-- src/server/voiceAgent.ts `executeToolCall`: dispatch on the tool name.
All result values are `Except.ok`, except the TypeError `identifyUserTool` can
raise on a missing or non-string phone_number argument. -/
def executeToolCall (toolName : String) (args : Args)
    (context : ConversationContext) (store : Store) : Except String ToolOutcome :=
  if toolName == "identify_user" then identifyUserTool args context store
  else if toolName == "fetch_slots" then Except.ok (fetchSlotsTool args context store)
  else if toolName == "book_appointment" then Except.ok (bookAppointmentTool args context store)
  else if toolName == "retrieve_appointments" then Except.ok (retrieveAppointmentsTool context store)
  else if toolName == "cancel_appointment" then Except.ok (cancelAppointmentTool args context store)
  else if toolName == "modify_appointment" then Except.ok (modifyAppointmentTool args context store)
  else if toolName == "end_conversation" then
    Except.ok ⟨"Goodbye! Thank you for using our scheduling service.", context, true, store⟩
  else Except.ok ⟨s!"Unknown tool: {toolName}", context, false, store⟩

/-- Whether a tool execution returned normally (no thrown exception). -/
def isOkB (e : Except String ToolOutcome) : Bool :=
  match e with
  | Except.ok _ => true
  | Except.error _ => false

/-- Run a sequence of tool calls, threading the store; `none` when a call
throws. -/
def runToolSeq (steps : List (String × Args × ConversationContext))
    (store : Store) : Option Store :=
  match steps with
  | [] => some store
  | (t, a, c) :: rest =>
    match executeToolCall t a c store with
    | Except.ok o => runToolSeq rest o.store
    | Except.error _ => none

/-- The (date, time) pairs of the active (non-cancelled) appointments, in
list order. -/
def activeSlotsList (store : Store) : List (String × String) :=
  (store.appointments.filter (fun a => a.status != "cancelled")).map
    (fun a => (a.date, a.time))

/-- The no-double-booking invariant: at most one active appointment per
(date, time) pair across all users. -/
def slotInvariant (store : Store) : Prop :=
  (activeSlotsList store).Nodup

instance (store : Store) : Decidable (slotInvariant store) := by
  unfold slotInvariant; infer_instance

/-- An argument value that is either a string or absent (the shapes the tool
schema declares for new_date / new_time). -/
def strOrUndef (v : JVal) : Prop :=
  (∃ s, v = JVal.str s) ∨ v = JVal.undef

/-- The string-level value of `v || cur` (JS falsy fallback) for a
string-or-absent argument. -/
def jsFallbackStr (v : JVal) (cur : String) : String :=
  match v with
  | JVal.str s => if s != "" then s else cur
  | _ => cur

/-- Well-formedness of the users table: ids are unique (the serial primary
key). -/
def usersIdNodup (store : Store) : Prop :=
  (store.users.map User.id).Nodup

/-- Well-formedness of the appointments table: ids are unique (the serial
primary key). -/
def apptIdsNodup (store : Store) : Prop :=
  (store.appointments.map Appointment.id).Nodup

/-- Well-formedness of the serial counter: every stored appointment id is
below the next id to be assigned. -/
def apptIdsFresh (store : Store) : Prop :=
  ∀ a ∈ store.appointments, a.id < store.nextApptId

/-- Between two user tables: every user whose name was already non-empty is
untouched (name-fill-once). -/
def namesPreserved (old new : List User) : Prop :=
  ∀ (i : Nat) (h1 : i < old.length) (h2 : i < new.length) (nm : String),
    (old[i]).name = some nm → nm ≠ "" → new[i] = old[i]

/-- The per-call context of the /api/bey/tool-execute handler
(src/server/routes.ts `BeyContext`). -/
structure BeyContext where
  callId : String
  agentId : String
  userId : Option Nat
  phoneNumber : Option String
  userName : Option String
deriving Repr, DecidableEq

/-- The identify_user case of the /api/bey/tool-execute handler
(src/server/routes.ts lines 729-775).  This variant also takes an optional
name and sets it only when the looked-up user has none.  A numeric
phone_number value makes `phone.replace` throw, hence the Except result. -/
def beyIdentifyUser (args : Args) (context : BeyContext) (store : Store) :
    Except String (String × BeyContext × Store) :=
  let phoneV := getArg args "phone_number"
  let nameV := getArg args "name"
  match phoneV with
  | JVal.num _ => Except.error "TypeError: phone.replace is not a function"
  | _ =>
    let phone := match phoneV with | JVal.str s => s | _ => ""
    let digitsOnly := digitsOnlyOf phone
    if digitsOnly == "" then
      Except.ok ("Please provide a valid phone number.", context, store)
    else
      let name := jvalToString nameV
      match getUserByPhoneNumber store digitsOnly with
      | none =>
        let storedName := if jTruthy nameV then some name else none
        let (user, store1) := createUser store digitsOnly storedName
        let context1 : BeyContext :=
          { context with userId := some user.id, phoneNumber := some digitsOnly,
                         userName := jsStrOpt user.name }
        let last4 := digitsOnly.drop (digitsOnly.length - 4)
        let result :=
          if !(jTruthy nameV) then
            s!"I've confirmed your phone number ending in {last4}. May I have your name please?"
          else
            s!"Thank you, {name}! I've created your account. You don't have any appointments scheduled yet. Would you like to book an appointment?"
        Except.ok (result, context1, store1)
      | some user0 =>
        let (user, store1) :=
          if jTruthy nameV && !(jsStrTruthy user0.name) then
            ({ user0 with name := some name }, updateUserName store user0.id name)
          else (user0, store)
        let context1 : BeyContext :=
          { context with userId := some user.id, phoneNumber := some digitsOnly,
                         userName := jsStrOpt user.name }
        let userNameBit :=
          match user.name with
          | some nm => if nm == "" then "" else s!", {nm}"
          | none => ""
        let last4 := digitsOnly.drop (digitsOnly.length - 4)
        let appointments := getAppointmentsByUser store1 user.id
        let active := appointments.filter (fun a => a.status != "cancelled")
        let result :=
          if active.length == 0 then
            s!"Welcome back{userNameBit}! Your phone number ending in {last4} is confirmed. You don't have any appointments scheduled. Would you like to book one?"
          else
            let list := joinSemi (active.map apptListEntry)
            let plural := if active.length > 1 then "s" else ""
            let n := active.length
            s!"Welcome back{userNameBit}! I found {n} appointment{plural} for you: {list}. Would you like to book a new appointment, or modify or cancel an existing one?"
        Except.ok (result, context1, store1)

/-- The set_user_name case of the /api/bey/tool-execute handler
(src/server/routes.ts lines 777-795).  Note the name is written
unconditionally: an existing name is overwritten. -/
def beySetUserName (args : Args) (context : BeyContext) (store : Store) :
    String × BeyContext × Store :=
  match jsUserId context.userId with
  | none => ("Please provide your phone number first.", context, store)
  | some uid =>
    let nameV := getArg args "name"
    if !(jTruthy nameV) then
      ("Please tell me your name.", context, store)
    else
      let name := jvalToString nameV
      let store1 := updateUserName store uid name
      let context1 := { context with userName := some name }
      (s!"Thank you, {name}! Your name has been saved. Would you like to book an appointment?",
        context1, store1)

/-- One appointment request extracted from the transcript by the LLM
(src/server/voiceAgent.ts `extractedData.appointmentRequests` entries). -/
structure ApptRequest where
  date : Option String
  time : Option String
  description : Option String
deriving Repr, DecidableEq

/-- One cancellation request extracted from the transcript. -/
structure CancelRequest where
  date : Option String
  time : Option String
deriving Repr, DecidableEq

/-- The structured output of the summarizer's LLM extraction step. -/
structure ExtractedData where
  userName : Option String
  phoneNumber : Option String
  appointmentRequests : List ApptRequest
  cancellationRequests : List CancelRequest
  summary : Option String
  userPreferences : List String
deriving Repr, DecidableEq

/-- The default extraction used when the LLM response fails to parse
(the inner catch of `generateCallSummary`). -/
def defaultExtracted : ExtractedData :=
  ⟨none, none, [], [], some "Call completed.", []⟩

/-- The outcome of the summarizer's LLM extraction: the call threw (handled
by the outer catch), the response was unparseable JSON (inner catch, default
data), or it parsed. -/
inductive ExtractionOutcome where
  | llmFailure : ExtractionOutcome
  | malformed : ExtractionOutcome
  | parsed : ExtractedData → ExtractionOutcome
deriving Repr, DecidableEq

/-- The structured payload returned by `generateCallSummary`. -/
structure SummaryResult where
  summary : String
  appointments : List SummaryAppt
  userPreferences : List String
  userName : Option String
  phoneNumber : Option String
  newAppointmentsCreated : Option Nat
deriving Repr, DecidableEq

/-- The summarizer's appointment view of a stored appointment
(`description: a.description || undefined`). -/
def toSummaryAppt (a : Appointment) : SummaryAppt :=
  ⟨a.id, a.date, a.time, jsStrOpt a.description, a.status⟩

/-- The session's linked user as the summarizer loads it
(`if (session?.userId) user = await storage.getUser(session.userId)`). -/
def sessionUserOf (store : Store) (session : Option CallSession) : Option User :=
  session.bind (fun s => (jsUserId s.userId).bind (fun uid => getUser store uid))

/-- The summarizer's extracted phone
(`extractedData.phoneNumber?.replace(/\D/g,'') || session?.phoneNumber`). -/
def summaryPhoneOf (session : Option CallSession) (d : ExtractedData) : Option String :=
  jsOrOptStr (d.phoneNumber.map digitsOnlyOf) (session.bind CallSession.phoneNumber)

/-- The summarizer's extracted name (`extractedData.userName || user?.name`). -/
def summaryNameOf (user0 : Option User) (d : ExtractedData) : Option String :=
  jsOrOptStr d.userName (user0.bind User.name)

/-- The summarizer's user resolution (src/server/voiceAgent.ts lines
646-665): prefer the session's user; otherwise look up or create by the
extracted phone; fill the name only when absent. -/
def resolveSummaryUser (store : Store) (user0 : Option User)
    (extractedPhone extractedName : Option String) : Option User × Store :=
  match user0 with
  | none =>
    match extractedPhone with
    | some p =>
      if p != "" && decide (p.length ≥ 10) then
        match getUserByPhoneNumber store p with
        | some existingUser =>
          if jsStrTruthy extractedName && !(jsStrTruthy existingUser.name) then
            let nm := extractedName.getD ""
            (some { existingUser with name := some nm }, updateUserName store existingUser.id nm)
          else (some existingUser, store)
        | none =>
          let nm := if jsStrTruthy extractedName then extractedName else none
          let (u, store1) := createUser store p nm
          (some u, store1)
      else (none, store)
    | none => (none, store)
  | some u =>
    if jsStrTruthy extractedName && !(jsStrTruthy u.name) then
      let nm := extractedName.getD ""
      (some { u with name := some nm }, updateUserName store u.id nm)
    else (some u, store)

/-- Duplicate test of the summarizer's booking loop: some appointment in the
in-memory list has the same date, the same normalized time, and is not
cancelled. -/
def isDupReq (existing : List Appointment) (d t : String) : Bool :=
  existing.any (fun a =>
    a.date == d && normalizeTime a.time == normalizeTime t && a.status != "cancelled")

/-- The summarizer's appointment-creation loop (src/server/voiceAgent.ts
lines 670-704): for each extracted request with both date and time, skip
duplicates against the in-memory list, otherwise create a pending appointment
with a defaulted description and count it. -/
def summaryBookings (uid : Nat) (store : Store) (existing : List Appointment)
    (reqs : List ApptRequest) (count : Nat) : Store × List Appointment × Nat :=
  match reqs with
  | [] => (store, existing, count)
  | r :: rest =>
    match jsStrOpt r.date, jsStrOpt r.time with
    | some d, some t =>
      if isDupReq existing d t then
        summaryBookings uid store existing rest count
      else
        let (appt, store1) := createAppointment store uid d t
          (some (jsOrDefault r.description "Appointment booked via voice call")) "pending"
        summaryBookings uid store1 (existing ++ [appt]) rest (count + 1)
    | _, _ => summaryBookings uid store existing rest count

/-- Whether a stored appointment matches a cancellation request
(src/server/voiceAgent.ts lines 713-719). -/
def cancelMatches (c : CancelRequest) (a : Appointment) : Bool :=
  (match c.date with | some dd => a.date == dd | none => false) &&
  normalizeTime a.time == normalizeTime (jsOrDefault c.time "") &&
  a.status != "cancelled"

/-- The summarizer's cancellation loop: for each request, cancel the first
matching appointment of the list loaded before the loop (the list is not
reloaded between requests). -/
def summaryCancels (store : Store) (userAppts : List Appointment)
    (cs : List CancelRequest) : Store :=
  match cs with
  | [] => store
  | c :: rest =>
    match userAppts.find? (fun a => cancelMatches c a) with
    | some a => summaryCancels (setApptStatus store a.id "cancelled") userAppts rest
    | none => summaryCancels store userAppts rest

/-- The fallback finalize of `generateCallSummary` (the outer catch,
src/server/voiceAgent.ts lines 760-793): end the session with a generic
summary, the user's existing appointments and empty preferences. -/
def summaryFallback (store : Store) (sid : Nat) (transcript : Option String)
    (session : Option CallSession) (user : Option User) : SummaryResult × Store :=
  let appointments :=
    match user with
    | some u => (getAppointmentsByUser store u.id).map toSummaryAppt
    | none => []
  let fallbackSummary :=
    if jsStrTruthy transcript then "Call completed. Transcript has been saved."
    else "Call completed."
  let store1 := endCallSession store sid fallbackSummary appointments [] transcript
  ({ summary := fallbackSummary,
     appointments := appointments,
     userPreferences := [],
     userName := jsStrOpt (user.bind User.name),
     phoneNumber := jsStrOpt (session.bind CallSession.phoneNumber),
     newAppointmentsCreated := none }, store1)

/-- The main path of `generateCallSummary` after a successful extraction:
resolve the user, create the extracted bookings with duplicate protection,
apply the extracted cancellations, finalize the session and return the
payload. -/
def summaryMain (store : Store) (sid : Nat) (transcript : Option String)
    (session : Option CallSession) (user0 : Option User) (d : ExtractedData) :
    SummaryResult × Store :=
  let extractedPhone := summaryPhoneOf session d
  let extractedName := summaryNameOf user0 d
  let (user, store1) := resolveSummaryUser store user0 extractedPhone extractedName
  let existingAppts :=
    match user with
    | some u => getAppointmentsByUser store1 u.id
    | none => []
  let (store2, count) :=
    match user with
    | some u =>
      if d.appointmentRequests.length > 0 then
        let (s2, _, c) := summaryBookings u.id store1 existingAppts d.appointmentRequests 0
        (s2, c)
      else (store1, 0)
    | none => (store1, 0)
  let store3 :=
    match user with
    | some u =>
      if d.cancellationRequests.length > 0 then
        let userAppts := getAppointmentsByUser store2 u.id
        summaryCancels store2 userAppts d.cancellationRequests
      else store2
    | none => store2
  let appointments :=
    match user with
    | some u => (getAppointmentsByUser store3 u.id).map toSummaryAppt
    | none => []
  let summary := jsOrDefault d.summary "Call completed."
  let prefs := d.userPreferences
  let storedSummary :=
    summary ++ (if count > 0 then s!" ({count} appointment(s) created)" else "")
  let store4 := endCallSession store3 sid storedSummary appointments prefs transcript
  ({ summary :=
       summary ++ (if count > 0 then
         s!" {count} appointment(s) were automatically created from this conversation."
       else ""),
     appointments := appointments,
     userPreferences := prefs,
     userName := jsStrOpt extractedName,
     phoneNumber := jsStrOpt extractedPhone,
     newAppointmentsCreated := some count }, store4)

/-- src/server/voiceAgent.ts `generateCallSummary`: load the session and its
user, then either run the main extraction-application path or, when the LLM
call failed, the fallback finalize. -/
def generateCallSummary (store : Store) (sid : Nat) (transcript : Option String)
    (extraction : ExtractionOutcome) : SummaryResult × Store :=
  let session := getCallSession store sid
  let user0 := sessionUserOf store session
  match extraction with
  | ExtractionOutcome.llmFailure => summaryFallback store sid transcript session user0
  | ExtractionOutcome.malformed => summaryMain store sid transcript session user0 defaultExtracted
  | ExtractionOutcome.parsed d => summaryMain store sid transcript session user0 d

/-- Whether an optional store has an active double booking (two distinct
active-appointment positions on the same slot). -/
def optionStoreViolates (o : Option Store) : Bool :=
  match o with
  | some s => !(decide (slotInvariant s))
  | none => false

/-- Fixture: two identified users and an empty appointment table. -/
def seqStore : Store :=
  ⟨[⟨1, "5551234567", none⟩, ⟨2, "5559876543", none⟩], [], [], 3, 1⟩

/-- Fixture: conversation context identified as user 1. -/
def seqCtxUser1 : ConversationContext := ⟨1, some 1, some "5551234567", none, []⟩

/-- Fixture: conversation context identified as user 2. -/
def seqCtxUser2 : ConversationContext := ⟨2, some 2, some "5559876543", none, []⟩

/-- Fixture: user 1 books a slot, cancels, user 2 books the same slot, then
user 1 modifies the cancelled appointment back onto that slot. -/
def doubleBookSteps : List (String × Args × ConversationContext) :=
  [ ("book_appointment",
      [("date", JVal.str "2026-01-28"), ("time", JVal.str "09:00 AM")], seqCtxUser1),
    ("cancel_appointment", [("appointment_id", JVal.num 1)], seqCtxUser1),
    ("book_appointment",
      [("date", JVal.str "2026-01-28"), ("time", JVal.str "09:00 AM")], seqCtxUser2),
    ("modify_appointment",
      [("appointment_id", JVal.num 1), ("new_time", JVal.str "09:00 AM")], seqCtxUser1) ]

/-- Fixture: a call session linked to user 1. -/
def sumSession : CallSession :=
  ⟨7, some 1, some "5551234567", "active", none, none, [], []⟩

/-- Fixture: store with one named user and their session. -/
def sumStore : Store :=
  ⟨[⟨1, "5551234567", some "Alice"⟩], [], [sumSession], 2, 1⟩

/-- Fixture: an extraction that confirms a booking and then its
cancellation, for the same slot (modulo time normalization). -/
def sumExtraction : ExtractedData :=
  ⟨none, none, [⟨some "2026-01-28", some "9:00 AM", none⟩],
    [⟨some "2026-01-28", some "09:00 am"⟩], some "Booked then cancelled.", []⟩

/-- First summarizer run on the booking-then-cancellation extraction. -/
def sumRun1 : SummaryResult × Store :=
  generateCallSummary sumStore 7 (some "transcript")
    (ExtractionOutcome.parsed sumExtraction)

/-- Second summarizer run, on the same extraction, over the first run's
store. -/
def sumRun2 : SummaryResult × Store :=
  generateCallSummary sumRun1.2 7 (some "transcript")
    (ExtractionOutcome.parsed sumExtraction)

/-- Fixture: an extraction with one booking request and no cancellation
requests. -/
def c2wExtraction : ExtractedData :=
  ⟨none, none, [⟨some "2026-01-29", some "10:00 AM", some "Check-up"⟩], [],
    some "Booked.", []⟩

/-- Fixture for the modify conflict edge case: user 1 owns a cancelled
appointment on the catalog slot 2026-01-29 11:00 AM, and user 2 owns an
active appointment on the same slot. -/
def modStore : Store :=
  ⟨[⟨1, "5551234567", none⟩, ⟨2, "5559876543", none⟩],
    [⟨1, 1, "2026-01-29", "11:00 AM", none, "cancelled"⟩,
     ⟨2, 2, "2026-01-29", "11:00 AM", none, "scheduled"⟩], [], 3, 3⟩

/-- Fixture: the modify arguments rescheduling appointment 1 onto its own
current (and user 2's active) slot. -/
def modArgs : Args :=
  [("appointment_id", JVal.num 1), ("new_time", JVal.str "11:00 AM")]

/-- Fixture: the Beyond-Presence context identified as user 1. -/
def beyCtx1 : BeyContext := ⟨"call-1", "", some 1, some "5551234567", some "Alice"⟩

/-- Fixture: a store whose user 2 holds an active appointment on the catalog
slot 2026-01-28 09:00 AM, with a session linked to user 1. -/
def crossStore : Store :=
  ⟨[⟨1, "5551234567", none⟩, ⟨2, "5550000000", none⟩],
    [⟨1, 2, "2026-01-28", "09:00 AM", none, "scheduled"⟩],
    [⟨7, some 1, some "5551234567", "active", none, none, [], []⟩], 3, 2⟩

/-- Fixture: an extraction requesting user 2's occupied slot and an
off-catalog date. -/
def crossExtraction : ExtractedData :=
  ⟨none, none,
    [⟨some "2026-01-28", some "09:00 AM", none⟩,
     ⟨some "2099-12-31", some "09:00 AM", none⟩], [], none, []⟩

/-- The summarizer run over `crossStore`. -/
def crossRun : SummaryResult × Store :=
  generateCallSummary crossStore 7 none (ExtractionOutcome.parsed crossExtraction)

end VoiceAgent

namespace VoiceAgent

/-- Setting an appointment's status twice to the same value is the same as
setting it once. -/
theorem setApptStatus_idem (store : Store) (aid : Nat) (st : String) :
    setApptStatus (setApptStatus store aid st) aid st = setApptStatus store aid st := by
  unfold setApptStatus
  simp only [List.map_map]
  congr 1
  apply List.map_congr_left
  intro a _
  by_cases h : a.id == aid <;> simp [Function.comp, h]

/-- Structural facts about the fallback finalize: appointments and users are
untouched, preferences are empty, no creation count is reported, the summary
is one of the two generic texts, and the session with the given id is ended
with the snapshot fields of the payload. -/
theorem summaryFallback_facts (store : Store) (sid : Nat) (tr : Option String)
    (session : Option CallSession) (user : Option User) :
    (summaryFallback store sid tr session user).2.appointments = store.appointments ∧
    (summaryFallback store sid tr session user).2.users = store.users ∧
    (summaryFallback store sid tr session user).1.userPreferences = [] ∧
    (summaryFallback store sid tr session user).1.newAppointmentsCreated = none ∧
    ((summaryFallback store sid tr session user).1.summary =
        "Call completed. Transcript has been saved." ∨
      (summaryFallback store sid tr session user).1.summary = "Call completed.") ∧
    (∀ s ∈ (summaryFallback store sid tr session user).2.sessions,
      s.id = sid →
        s.status = "ended" ∧
        s.userPreferencesSnap = [] ∧
        s.summary = some (summaryFallback store sid tr session user).1.summary ∧
        s.transcript = tr ∧
        s.bookedAppointmentsSnap = (summaryFallback store sid tr session user).1.appointments) := by
  unfold summaryFallback endCallSession
  refine ⟨rfl, rfl, rfl, rfl, ?_, ?_⟩
  · by_cases h : jsStrTruthy tr <;> simp [h]
  · intro s hs hid
    simp only [List.mem_map] at hs
    obtain ⟨x, hx, hxs⟩ := hs
    by_cases hxid : x.id == sid
    · simp only [hxid, if_true] at hxs
      subst hxs
      simp
    · simp only [hxid, if_false] at hxs
      subst hxs
      simp only [beq_iff_eq] at hxid
      exact absurd hid hxid

/-- Claim C1 (code bug): the tool layer violates the at-most-one-active-
appointment-per-slot invariant.  Starting from a store satisfying the
invariant, the reachable sequence "user 1 books 2026-01-28 09:00 AM; user 1
cancels it; user 2 books the same slot; user 1 modifies the cancelled
appointment giving new_time 09:00 AM" succeeds and leaves two distinct active
appointments on the same (date, time): modify_appointment's availability
re-check excludes entries matching the appointment's own current date+time
rather than its id, so a cancelled appointment can be revived onto its old
slot even though a different user now actively occupies it. -/
theorem C1_modify_revives_double_booking :
    slotInvariant seqStore ∧ optionStoreViolates (runToolSeq doubleBookSteps seqStore) = true := by
  constructor
  · decide
  · decide

/-- Claim C2 counterexample: with an extraction that confirms a booking and a
matching cancellation, the first summarizer run creates one appointment (then
cancels it), and the second run on the very same extraction creates one NEW
appointment again — not zero — because the duplicate check ignores cancelled
appointments. -/
theorem C2_second_run_recreates_after_cancellation :
    sumRun1.1.newAppointmentsCreated = some 1 ∧
    sumRun2.1.newAppointmentsCreated = some 1 ∧
    sumRun2.2.appointments.length = sumRun1.2.appointments.length + 1 := by
  refine ⟨by rfl, by rfl, by rfl⟩

/-- Claim C4 counterexample: appointment 1 (the caller's, cancelled) sits on
the same slot as user 2's active appointment 2; modifying appointment 1 onto
that target slot — which IS occupied by a different active appointment —
does not return a conflict: it succeeds and re-activates appointment 1 on the
occupied slot. -/
theorem C4_modify_cancelled_onto_occupied_succeeds :
    (∃ b, getAppointment modStore 2 = some b ∧ b.status = "scheduled" ∧
      b.date = "2026-01-29" ∧ b.time = "11:00 AM" ∧ b.id ≠ 1) ∧
    executeToolCall "modify_appointment" modArgs seqCtxUser1 modStore =
      Except.ok ⟨"Appointment 1 has been rescheduled to 2026-01-29 at 11:00 AM.",
        seqCtxUser1, false,
        updateApptDateTimeStatus modStore 1 "2026-01-29" "11:00 AM" "scheduled"⟩ ∧
    getAppointment (updateApptDateTimeStatus modStore 1 "2026-01-29" "11:00 AM" "scheduled") 1 =
      some ⟨1, 1, "2026-01-29", "11:00 AM", none, "scheduled"⟩ := by
  refine ⟨⟨⟨2, 2, "2026-01-29", "11:00 AM", none, "scheduled"⟩, by decide⟩, by rfl, by decide⟩

/-- Claim C5 counterexample: user 1's name is the non-empty "Alice", yet the
set_user_name tool overwrites it with "Bob". -/
theorem C5_set_user_name_overwrites :
    getUser sumStore 1 = some ⟨1, "5551234567", some "Alice"⟩ ∧
    getUser (beySetUserName [("name", JVal.str "Bob")] beyCtx1 sumStore).2.2 1 =
      some ⟨1, "5551234567", some "Bob"⟩ := by
  refine ⟨by decide, by decide⟩

/-- Claim C7 counterexample: executeToolCall on identify_user with an empty
argument bag propagates a TypeError (the source calls
`phoneNumber.replace` on undefined) instead of returning a guiding text. -/
theorem C7_identify_user_missing_phone_throws :
    executeToolCall "identify_user" [] seqCtxUser1 seqStore =
      Except.error "TypeError: cannot read replace of undefined" := by
  rfl

/-- Claim C10: the summarizer's appointment creation consults only the
resolved user's own appointments: over `crossStore` it creates, for user 1,
an appointment on the very slot user 2 actively occupies, and another on a
date that is not in the slot catalog at all. -/
theorem C10_summarizer_ignores_global_set_and_catalog :
    (∃ b ∈ crossStore.appointments,
        b.userId = 2 ∧ b.status = "scheduled" ∧ b.date = "2026-01-28" ∧ b.time = "09:00 AM") ∧
    crossRun.1.newAppointmentsCreated = some 2 ∧
    (∃ a ∈ crossRun.2.appointments,
        a.userId = 1 ∧ a.status = "pending" ∧ a.date = "2026-01-28" ∧ a.time = "09:00 AM") ∧
    (∃ a ∈ crossRun.2.appointments,
        a.userId = 1 ∧ a.status = "pending" ∧ a.date = "2099-12-31") ∧
    availableSlots.all (fun s => s.date != "2099-12-31") = true := by
  refine ⟨⟨⟨1, 2, "2026-01-28", "09:00 AM", none, "scheduled"⟩, by decide⟩,
    by decide,
    ⟨⟨2, 1, "2026-01-28", "09:00 AM", some "Appointment booked via voice call", "pending"⟩, by decide⟩,
    ⟨⟨3, 1, "2099-12-31", "09:00 AM", some "Appointment booked via voice call", "pending"⟩, by decide⟩,
    by decide⟩

/-- Claim C8: cancellation is idempotent.  At the store layer, cancelling an
appointment twice produces exactly the same store and returned row as
cancelling it once (and a second cancel of an already-cancelled row is a
no-op write).  At the tool layer, cancel_appointment on the caller's own
already-cancelled appointment performs no store write and returns the
informative text instead of an error. -/
theorem C8_cancellation_idempotent :
    (∀ (store : Store) (aid : Nat),
      cancelAppointment (cancelAppointment store aid).2 aid = cancelAppointment store aid) ∧
    (∀ (store : Store) (ctx : ConversationContext) (args : Args) (uid : Nat) (a : Appointment),
      jsUserId ctx.userId = some uid →
      getAppointmentJ store (getArg args "appointment_id") = some a →
      a.userId = uid →
      a.status = "cancelled" →
      executeToolCall "cancel_appointment" args ctx store =
        Except.ok ⟨"This appointment is already cancelled.", ctx, false, store⟩) := by
  constructor
  · intro store aid
    unfold cancelAppointment
    simp only [setApptStatus_idem]
  · intro store ctx args uid a h1 h2 h3 h4
    have e : executeToolCall "cancel_appointment" args ctx store =
        Except.ok (cancelAppointmentTool args ctx store) := rfl
    rw [e]
    unfold cancelAppointmentTool
    rw [h1]
    simp only [h2, h3, h4]
    simp

/-- Claim C8 witness: on a concrete store whose appointment 1 is already
cancelled and owned by the calling user, the tool answers with the
already-cancelled text and leaves the store untouched. -/
theorem C8_cancellation_idempotent_witness :
    executeToolCall "cancel_appointment" [("appointment_id", JVal.num 1)] seqCtxUser1 modStore =
      Except.ok ⟨"This appointment is already cancelled.", seqCtxUser1, false, modStore⟩ :=
  C8_cancellation_idempotent.2 modStore seqCtxUser1 [("appointment_id", JVal.num 1)] 1
    ⟨1, 1, "2026-01-29", "11:00 AM", none, "cancelled"⟩
    (by decide) (by decide) (by decide) (by decide)

/-- Claim C6: identify_user normalizes the supplied phone string to its
digits.  The three sample spellings all normalize to the same canonical
digits; when the digit count is not exactly 10 the tool answers, for every
store alike (so no lookup result can influence it), with the fixed
"please repeat" guidance, leaving the context and the whole store (users,
appointments, sessions) unchanged; with exactly 10 digits the canonical
digits-only form is what gets stored into the context. -/
theorem C6_phone_normalization :
    digitsOnlyOf "555-123-4567" = "5551234567" ∧
    digitsOnlyOf "(555) 123-4567" = "5551234567" ∧
    digitsOnlyOf "5551234567" = "5551234567" ∧
    (∀ (args : Args) (ctx : ConversationContext) (s : String),
      getArg args "phone_number" = JVal.str s →
      ((digitsOnlyOf s).length > 10 →
        ∀ store : Store, executeToolCall "identify_user" args ctx store =
          Except.ok ⟨s!"I heard {s}, but that seems to have more than 10 digits. Could you please repeat your phone number slowly?",
            ctx, false, store⟩) ∧
      ((digitsOnlyOf s).length < 10 →
        ∀ store : Store, executeToolCall "identify_user" args ctx store =
          Except.ok ⟨s!"I heard {s}, but that seems to have fewer than 10 digits. Could you please repeat your complete phone number?",
            ctx, false, store⟩) ∧
      ((digitsOnlyOf s).length = 10 →
        ∀ store : Store,
          (executeToolCall "identify_user" args ctx store).map
              (fun o => (o.context.phoneNumber, o.context.userId.isSome)) =
            Except.ok (some (digitsOnlyOf s), true))) := by
  refine ⟨by decide, by decide, by decide, ?_⟩
  intro args ctx s harg
  have e : ∀ store : Store, executeToolCall "identify_user" args ctx store =
      identifyUserTool args ctx store := fun _ => rfl
  refine ⟨?_, ?_, ?_⟩
  · intro hlen store
    rw [e]
    unfold identifyUserTool
    rw [harg]
    simp [hlen]
  · intro hlen store
    rw [e]
    unfold identifyUserTool
    rw [harg]
    have h1 : ¬((digitsOnlyOf s).length > 10) := by omega
    simp [h1, hlen]
  · intro hlen store
    rw [e]
    unfold identifyUserTool
    rw [harg]
    have h1 : ¬((digitsOnlyOf s).length > 10) := by omega
    have h2 : ¬((digitsOnlyOf s).length < 10) := by omega
    cases hu : getUserByPhoneNumber store (digitsOnlyOf s) with
    | none => simp [hu, h1, h2, Except.map]
    | some u => simp [hu, h1, h2, Except.map]

/-- Claim C6 witness: a concrete over-long phone number gets the repeat
guidance and changes nothing. -/
theorem C6_phone_normalization_witness :
    executeToolCall "identify_user" [("phone_number", JVal.str "555-123-45678")] seqCtxUser1 seqStore =
      Except.ok ⟨"I heard 555-123-45678, but that seems to have more than 10 digits. Could you please repeat your phone number slowly?",
        seqCtxUser1, false, seqStore⟩ := by
  have h := (C6_phone_normalization.2.2.2 [("phone_number", JVal.str "555-123-45678")]
    seqCtxUser1 "555-123-45678" (by decide)).1 (by decide) seqStore
  simpa using h

/-- Claim C3: the book_appointment tool.  Without an identified user it
answers with the identification guidance and changes nothing; with one, a
target already in the active-booked set yields the conflict text and an
unchanged store; a target outside the slot catalog yields the
not-available text and an unchanged store; and otherwise exactly one
appointment is created for the context's user with status scheduled, and the
result text carries the new appointment's id. -/
theorem C3_book_appointment_spec :
    ∀ (store : Store) (ctx : ConversationContext) (args : Args),
      (jsUserId ctx.userId = none →
        executeToolCall "book_appointment" args ctx store =
          Except.ok ⟨"Please provide your phone number first so I can identify you before booking.",
            ctx, false, store⟩) ∧
      (∀ (uid : Nat) (d t : String) (dv : JVal),
        jsUserId ctx.userId = some uid →
        getArg args "date" = JVal.str d →
        getArg args "time" = JVal.str t →
        getArg args "description" = dv →
        ((getBookedSlots store).any (fun s => d == s.1 && t == s.2) = true →
          executeToolCall "book_appointment" args ctx store =
            Except.ok ⟨s!"Sorry, the slot on {d} at {t} is already booked. Would you like to pick another time?",
              ctx, false, store⟩) ∧
        ((getBookedSlots store).any (fun s => d == s.1 && t == s.2) = false →
          availableSlots.any (fun s => d == s.date && t == s.time) = false →
          executeToolCall "book_appointment" args ctx store =
            Except.ok ⟨s!"Sorry, {d} at {t} is not an available slot. Let me show you what's available.",
              ctx, false, store⟩) ∧
        ((getBookedSlots store).any (fun s => d == s.1 && t == s.2) = false →
          availableSlots.any (fun s => d == s.date && t == s.time) = true →
          executeToolCall "book_appointment" args ctx store =
            Except.ok ⟨s!"Appointment booked successfully for {d} at {t}. Your appointment ID is {store.nextApptId}.{descSuffix (jvalDescOpt dv)}",
              ctx, false,
              (createAppointment store uid d t (jvalDescOpt dv) "scheduled").2⟩ ∧
          (createAppointment store uid d t (jvalDescOpt dv) "scheduled").2.appointments =
            store.appointments ++
              [⟨store.nextApptId, uid, d, t, jvalDescOpt dv, "scheduled"⟩])) := by
  intro store ctx args
  have e : executeToolCall "book_appointment" args ctx store =
      Except.ok (bookAppointmentTool args ctx store) := rfl
  constructor
  · intro h
    rw [e]
    unfold bookAppointmentTool
    rw [h]
  · intro uid d t dv hu hd ht hdv
    refine ⟨?_, ?_, ?_⟩
    · intro htaken
      rw [e]
      unfold bookAppointmentTool
      rw [hu, hd, ht]
      simp only [jvalEqStr, jvalToString, htaken, if_true]
    · intro hfree hinvalid
      rw [e]
      unfold bookAppointmentTool
      rw [hu, hd, ht]
      have hfind : availableSlots.find? (fun s => d == s.date && t == s.time) = none := by
        cases hf : availableSlots.find? (fun s => d == s.date && t == s.time) with
        | none => rfl
        | some slot =>
          have hmem := List.mem_of_find?_eq_some hf
          have hp := List.find?_some hf
          have : availableSlots.any (fun s => d == s.date && t == s.time) = true :=
            List.any_eq_true.mpr ⟨slot, hmem, hp⟩
          rw [this] at hinvalid
          exact absurd hinvalid (by simp)
      simp only [jvalEqStr, jvalToString, hfree, Bool.false_eq_true, if_false, hfind]
    · intro hfree hvalid
      rw [e]
      unfold bookAppointmentTool
      rw [hu, hd, ht, hdv]
      obtain ⟨slot, hmem, hp⟩ := List.any_eq_true.mp hvalid
      have hsome : (availableSlots.find? (fun s => d == s.date && t == s.time)).isSome :=
        List.find?_isSome.mpr ⟨slot, hmem, hp⟩
      cases hf : availableSlots.find? (fun s => d == s.date && t == s.time) with
      | none => rw [hf] at hsome; exact absurd hsome (by simp)
      | some sl =>
        have hpsl := List.find?_some hf
        have hde : d = sl.date := by
          have := (Bool.and_eq_true _ _).mp hpsl
          exact eq_of_beq this.1
        have hte : t = sl.time := by
          have := (Bool.and_eq_true _ _).mp hpsl
          exact eq_of_beq this.2
        subst hde hte
        simp only [jvalEqStr, jvalToString, hfree, Bool.false_eq_true, if_false, hf]
        exact ⟨rfl, rfl⟩

/-- Claim C3 witness: booking the free catalog slot 2026-01-28 09:00 AM for
identified user 1 over the empty appointment table succeeds and the result
carries appointment id 1. -/
theorem C3_book_appointment_spec_witness :
    executeToolCall "book_appointment"
        [("date", JVal.str "2026-01-28"), ("time", JVal.str "09:00 AM")] seqCtxUser1 seqStore =
      Except.ok ⟨"Appointment booked successfully for 2026-01-28 at 09:00 AM. Your appointment ID is 1.",
        seqCtxUser1, false,
        (createAppointment seqStore 1 "2026-01-28" "09:00 AM" none "scheduled").2⟩ := by
  have h := ((C3_book_appointment_spec seqStore seqCtxUser1
      [("date", JVal.str "2026-01-28"), ("time", JVal.str "09:00 AM")]).2
    1 "2026-01-28" "09:00 AM" JVal.undef (by decide) (by decide) (by decide) (by decide)).2.2
    (by decide) (by decide)
  simpa using h.1

/-- Claim C7 (amended): executeToolCall returns a normal result (never
throws) for every tool name, argument bag, context and store, with the one
exception the counterexample forces: identify_user whose phone_number
argument is missing or not a string. -/
theorem C7_no_throw_except_identify_phone :
    ∀ (toolName : String) (args : Args) (ctx : ConversationContext) (store : Store),
      (toolName = "identify_user" → ∃ s, getArg args "phone_number" = JVal.str s) →
      ∃ o, executeToolCall toolName args ctx store = Except.ok o := by
  have isOkB_exists : ∀ e : Except String ToolOutcome, isOkB e = true → ∃ o, e = Except.ok o := by
    intro e he
    cases e with
    | ok o => exact ⟨o, rfl⟩
    | error msg => exact absurd he (by simp [isOkB])
  intro toolName args ctx store h
  apply isOkB_exists
  unfold executeToolCall
  by_cases h1 : toolName == "identify_user"
  · obtain ⟨s, hs⟩ := h (by simpa using h1)
    simp only [h1, if_true]
    unfold identifyUserTool
    rw [hs]
    by_cases h2 : (digitsOnlyOf s).length > 10
    · simp [isOkB, h2]
    · by_cases h3 : (digitsOnlyOf s).length < 10
      · simp [isOkB, h2, h3]
      · cases hu : getUserByPhoneNumber store (digitsOnlyOf s) with
        | none => simp [isOkB, h2, h3, hu]
        | some u => simp [isOkB, h2, h3, hu]
  · simp only [h1, Bool.false_eq_true, if_false]
    repeat' split
    all_goals rfl

/-- For a string-or-absent argument, the slot comparison on the JS fallback
value agrees with the string-level fallback. -/
theorem jvalEqStr_fallback (v : JVal) (cur x : String) (h : strOrUndef v) :
    jvalEqStr (if jTruthy v then v else JVal.str cur) x = (jsFallbackStr v cur == x) := by
  rcases h with ⟨s, rfl⟩ | rfl
  · by_cases hs : s != "" <;> simp [jTruthy, jvalEqStr, jsFallbackStr, hs]
  · simp [jTruthy, jvalEqStr, jsFallbackStr]

/-- For a string-or-absent argument, the JS rendering of the fallback value
is the string-level fallback. -/
theorem jvalToString_fallback (v : JVal) (cur : String) (h : strOrUndef v) :
    jvalToString (if jTruthy v then v else JVal.str cur) = jsFallbackStr v cur := by
  rcases h with ⟨s, rfl⟩ | rfl
  · by_cases hs : s != "" <;> simp [jTruthy, jvalToString, jsFallbackStr, hs]
  · simp [jTruthy, jvalToString, jsFallbackStr]

/-- A user table preserves all names under no change. -/
theorem namesPreserved_refl (l : List User) : namesPreserved l l := by
  intro i h1 h2 nm _ _
  rfl

/-- Appending new users preserves all existing names. -/
theorem namesPreserved_append (l l2 : List User) : namesPreserved l (l ++ l2) := by
  intro i h1 h2 nm hnm hne
  exact List.getElem_append_left h1

/-- Writing a name onto the id of a member whose name is absent leaves every
user with a non-empty name untouched (given unique ids). -/
theorem namesPreserved_update (store : Store) (uid : Nat) (nm : String)
    (hnodup : usersIdNodup store) (u : User) (hu : u ∈ store.users)
    (hun : jsStrTruthy u.name = false) (hid : u.id = uid) :
    namesPreserved store.users (updateUserName store uid nm).users := by
  intro i h1 h2 nm' hnm hne
  have h1' : i < (store.users.map (fun v => if v.id == uid then { v with name := some nm } else v)).length := by
    simpa using h1
  show (store.users.map (fun v => if v.id == uid then { v with name := some nm } else v))[i] =
    store.users[i]
  rw [List.getElem_map]
  have hmem : store.users[i] ∈ store.users := List.getElem_mem h1
  by_cases hb : store.users[i].id == uid
  · exfalso
    have hidq : store.users[i].id = u.id := by
      simp only [beq_iff_eq] at hb
      rw [hb, hid]
    have heq : store.users[i] = u :=
      List.inj_on_of_nodup_map hnodup hmem hu hidq
    rw [heq] at hnm
    rw [hnm] at hun
    simp only [jsStrTruthy] at hun
    simp only [bne_eq_false_iff_eq] at hun
    exact hne hun
  · simp [hb]

/-- Claim C5 (amended): name fill-once holds for the tool-execute
identify_user and for the Summarizer's user resolution — a non-empty name is
never overwritten, and an absent name is set when a non-empty one is
supplied — while the set_user_name tool overwrites unconditionally (the
behaviour the counterexample exhibits). -/
theorem C5_name_fill_rules :
    (∀ (args : Args) (ctx : BeyContext) (store : Store) (r : String × BeyContext × Store),
      usersIdNodup store →
      beyIdentifyUser args ctx store = Except.ok r →
      namesPreserved store.users r.2.2.users) ∧
    (∀ (store : Store) (user0 : Option User) (ph nmo : Option String),
      usersIdNodup store →
      (∀ u, user0 = some u → u ∈ store.users) →
      namesPreserved store.users (resolveSummaryUser store user0 ph nmo).2.users) ∧
    (∀ (store : Store) (u : User) (ph : Option String) (nm : String),
      jsStrTruthy u.name = false → nm ≠ "" →
      (resolveSummaryUser store (some u) ph (some nm)).1 = some { u with name := some nm } ∧
      (resolveSummaryUser store (some u) ph (some nm)).2 = updateUserName store u.id nm) ∧
    (∀ (args : Args) (ctx : BeyContext) (store : Store) (p : String) (u0 : User) (s : String),
      getArg args "phone_number" = JVal.str p →
      digitsOnlyOf p ≠ "" →
      getUserByPhoneNumber store (digitsOnlyOf p) = some u0 →
      jsStrTruthy u0.name = false →
      getArg args "name" = JVal.str s → s ≠ "" →
      (beyIdentifyUser args ctx store).map (fun r => (r.2.1.userName, r.2.2)) =
        Except.ok (some s, updateUserName store u0.id s)) ∧
    (∀ (args : Args) (ctx : BeyContext) (store : Store) (uid : Nat) (s : String),
      jsUserId ctx.userId = some uid →
      getArg args "name" = JVal.str s → s ≠ "" →
      (beySetUserName args ctx store).2.2 = updateUserName store uid s ∧
      (beySetUserName args ctx store).2.1.userName = some s) := by
  refine ⟨?_, ?_, ?_, ?_, ?_⟩
  · intro args ctx store r hnodup hok
    unfold beyIdentifyUser at hok
    cases hph : getArg args "phone_number" with
    | num n => rw [hph] at hok; exact absurd hok (by simp)
    | str p =>
      rw [hph] at hok
      by_cases hd : digitsOnlyOf p == ""
      · simp only [hd, if_true] at hok
        obtain rfl : _ = r := Except.ok.inj hok
        exact namesPreserved_refl _
      · simp only [hd, Bool.false_eq_true, if_false] at hok
        cases hu : getUserByPhoneNumber store (digitsOnlyOf p) with
        | none =>
          rw [hu] at hok
          obtain rfl : _ = r := Except.ok.inj hok
          exact namesPreserved_append _ _
        | some u0 =>
          rw [hu] at hok
          by_cases hc : jTruthy (getArg args "name") && !(jsStrTruthy u0.name)
          · simp only [hc, if_true] at hok
            obtain rfl : _ = r := Except.ok.inj hok
            exact namesPreserved_update store u0.id _ hnodup u0
              (List.mem_of_find?_eq_some hu) (by revert hc; cases jsStrTruthy u0.name <;> simp) rfl
          · simp only [hc, Bool.false_eq_true, if_false] at hok
            obtain rfl : _ = r := Except.ok.inj hok
            exact namesPreserved_refl _
    | undef =>
      rw [hph] at hok
      by_cases hd : digitsOnlyOf "" == ""
      · simp only [hd, if_true] at hok
        obtain rfl : _ = r := Except.ok.inj hok
        exact namesPreserved_refl _
      · exact absurd (by decide) hd
  · intro store user0 ph nmo hnodup hmem
    unfold resolveSummaryUser
    cases user0 with
    | some u =>
      by_cases hc : jsStrTruthy nmo && !(jsStrTruthy u.name)
      · simp only [hc, if_true]
        exact namesPreserved_update store u.id _ hnodup u (hmem u rfl)
          (by revert hc; cases jsStrTruthy u.name <;> simp) rfl
      · simp only [hc, Bool.false_eq_true, if_false]
        exact namesPreserved_refl _
    | none =>
      cases ph with
      | none => exact namesPreserved_refl _
      | some p =>
        by_cases hp : p != "" && decide (p.length ≥ 10)
        · simp only [hp, if_true]
          cases hu : getUserByPhoneNumber store p with
          | some eu =>
            by_cases hc : jsStrTruthy nmo && !(jsStrTruthy eu.name)
            · simp only [hc, if_true]
              exact namesPreserved_update store eu.id _ hnodup eu
                (List.mem_of_find?_eq_some hu) (by revert hc; cases jsStrTruthy eu.name <;> simp) rfl
            · simp only [hc, Bool.false_eq_true, if_false]
              exact namesPreserved_refl _
          | none =>
            simp only [hu]
            exact namesPreserved_append _ _
        · simp only [hp, Bool.false_eq_true, if_false]
          exact namesPreserved_refl _
  · intro store u ph nm hun hne
    have ht : jsStrTruthy (some nm) = true := by
      simp [jsStrTruthy, hne]
    simp [resolveSummaryUser, ht, hun]
  · intro args ctx store p u0 s hph hd hu hun hn hs
    unfold beyIdentifyUser
    rw [hph, hn]
    have hd' : (digitsOnlyOf p == "") = false := by
      simp [hd]
    have ht : jTruthy (JVal.str s) = true := by
      simp [jTruthy, hs]
    have hun' : (match u0.name with | some x => x != "" | none => false) = false := hun
    simp [hd', hu, ht, hun, hun', Except.map, jsStrOpt, jsStrTruthy, hs, jvalToString]
  · intro args ctx store uid s hctx hn hs
    unfold beySetUserName
    rw [hctx, hn]
    have ht : jTruthy (JVal.str s) = true := by
      simp [jTruthy, hs]
    simp [ht, jvalToString]

/-- Claim C5 witness: on the concrete store whose user 1 has no name... the
set_user_name overwrite rule applied at user 1 of `crossStore` writes the
supplied name. -/
theorem C5_name_fill_rules_witness :
    (beySetUserName [("name", JVal.str "Dana")] ⟨"c", "", some 1, none, none⟩ crossStore).2.2 =
      updateUserName crossStore 1 "Dana" :=
  (C5_name_fill_rules.2.2.2.2 [("name", JVal.str "Dana")] ⟨"c", "", some 1, none, none⟩
    crossStore 1 "Dana" (by decide) (by decide) (by decide)).1


/-- Claim C4 (amended): modify_appointment on the caller's own non-cancelled
appointment, in a store satisfying the no-double-booking invariant, with
string-or-absent new_date/new_time of which at least one is truthy:
if the target slot (unspecified fields falling back to the appointment's
current values) is occupied by a different active appointment, the conflict
text is returned and the store is left entirely unchanged; modifying onto the
appointment's own current slot succeeds; and when no different active
appointment occupies the target, the appointment's date and time become the
target values and its status is reset to scheduled. -/
theorem C4_modify_appointment_spec :
    ∀ (store : Store) (ctx : ConversationContext) (args : Args) (uid : Nat) (a : Appointment),
      slotInvariant store →
      jsUserId ctx.userId = some uid →
      getAppointmentJ store (getArg args "appointment_id") = some a →
      a.userId = uid →
      a.status ≠ "cancelled" →
      strOrUndef (getArg args "new_date") →
      strOrUndef (getArg args "new_time") →
      (jTruthy (getArg args "new_date") || jTruthy (getArg args "new_time")) = true →
      ∀ (td tt idS : String),
        td = jsFallbackStr (getArg args "new_date") a.date →
        tt = jsFallbackStr (getArg args "new_time") a.time →
        idS = jvalToString (getArg args "appointment_id") →
        ((∃ b ∈ store.appointments,
            b ≠ a ∧ b.status ≠ "cancelled" ∧ b.date = td ∧ b.time = tt) →
          executeToolCall "modify_appointment" args ctx store =
            Except.ok ⟨s!"Sorry, {td} at {tt} is already booked.", ctx, false, store⟩) ∧
        (td = a.date → tt = a.time →
          executeToolCall "modify_appointment" args ctx store =
            Except.ok ⟨s!"Appointment {idS} has been rescheduled to {td} at {tt}.", ctx, false,
              updateApptDateTimeStatus store a.id td tt "scheduled"⟩) ∧
        ((¬∃ b ∈ store.appointments,
            b ≠ a ∧ b.status ≠ "cancelled" ∧ b.date = td ∧ b.time = tt) →
          executeToolCall "modify_appointment" args ctx store =
            Except.ok ⟨s!"Appointment {idS} has been rescheduled to {td} at {tt}.", ctx, false,
              updateApptDateTimeStatus store a.id td tt "scheduled"⟩) := by
  intro store ctx args uid a hInv huid hJ hown hact hsu1 hsu2 htruthy td tt idS htd htt hidS
  have e : executeToolCall "modify_appointment" args ctx store =
      Except.ok (modifyAppointmentTool args ctx store) := rfl
  have hne : ((!jTruthy (getArg args "new_date")) && (!jTruthy (getArg args "new_time"))) = false := by
    cases h1 : jTruthy (getArg args "new_date") <;>
      cases h2 : jTruthy (getArg args "new_time") <;> simp_all
  have hown' : (a.userId != uid) = false := by
    simp [hown]
  have hEqD : ∀ x, jvalEqStr
      (if jTruthy (getArg args "new_date") then getArg args "new_date" else JVal.str a.date) x =
      (td == x) := by
    intro x
    rw [htd]
    exact jvalEqStr_fallback _ _ _ hsu1
  have hEqT : ∀ x, jvalEqStr
      (if jTruthy (getArg args "new_time") then getArg args "new_time" else JVal.str a.time) x =
      (tt == x) := by
    intro x
    rw [htt]
    exact jvalEqStr_fallback _ _ _ hsu2
  have hToD : jvalToString
      (if jTruthy (getArg args "new_date") then getArg args "new_date" else JVal.str a.date) = td := by
    rw [htd]
    exact jvalToString_fallback _ _ hsu1
  have hToT : jvalToString
      (if jTruthy (getArg args "new_time") then getArg args "new_time" else JVal.str a.time) = tt := by
    rw [htt]
    exact jvalToString_fallback _ _ hsu2
  have haMem : a ∈ store.appointments := List.mem_of_find?_eq_some hJ
  have hInj : ∀ b ∈ store.appointments, b.status ≠ "cancelled" →
      b.date = a.date → b.time = a.time → b = a := by
    intro b hbmem hbact hbd hbt
    have haf : a ∈ store.appointments.filter (fun x => x.status != "cancelled") :=
      List.mem_filter.mpr ⟨haMem, by simp [hact]⟩
    have hbf : b ∈ store.appointments.filter (fun x => x.status != "cancelled") :=
      List.mem_filter.mpr ⟨hbmem, by simp [hbact]⟩
    exact List.inj_on_of_nodup_map hInv hbf haf (by simp [hbd, hbt])
  have hstep : executeToolCall "modify_appointment" args ctx store =
      Except.ok (if (getBookedSlots store).any (fun s =>
            td == s.1 && (tt == s.2) && !(s.1 == a.date && s.2 == a.time)) then
          ⟨s!"Sorry, {td} at {tt} is already booked.", ctx, false, store⟩
        else
          ⟨s!"Appointment {idS} has been rescheduled to {td} at {tt}.", ctx, false,
            updateApptDateTimeStatus store a.id td tt "scheduled"⟩) := by
    rw [e]
    unfold modifyAppointmentTool
    rw [huid]
    simp only [hne, Bool.false_eq_true, if_false, hJ, hown', hEqD, hEqT, hToD, hToT, ← hidS]
  refine ⟨?_, ?_, ?_⟩
  · rintro ⟨b, hbmem, hbne, hbact, hbd, hbt⟩
    have hslot : ¬(b.date = a.date ∧ b.time = a.time) := by
      rintro ⟨h1, h2⟩
      exact hbne (hInj b hbmem hbact h1 h2)
    rw [hbd, hbt] at hslot
    have hpairmem : (b.date, b.time) ∈ getBookedSlots store := by
      unfold getBookedSlots
      exact List.mem_map_of_mem _ (List.mem_filter.mpr ⟨hbmem, by simp [hbact]⟩)
    have htaken : (getBookedSlots store).any (fun s =>
        td == s.1 && (tt == s.2) && !(s.1 == a.date && s.2 == a.time)) = true := by
      apply List.any_eq_true.mpr
      refine ⟨(b.date, b.time), hpairmem, ?_⟩
      simp only [hbd, hbt]
      simp
      exact not_and_or.mp hslot
    rw [hstep, htaken]
    simp
  · intro htda htta
    subst htda htta
    have hfree : (getBookedSlots store).any (fun s =>
        a.date == s.1 && (a.time == s.2) && !(s.1 == a.date && s.2 == a.time)) = false := by
      rw [List.any_eq_false]
      rintro ⟨p1, p2⟩ hp
      by_cases h1 : a.date == p1
      · by_cases h2 : a.time == p2
        · have e1 : p1 = a.date := (eq_of_beq h1).symm
          have e2 : p2 = a.time := (eq_of_beq h2).symm
          simp [e1, e2]
        · simp [h2]
      · simp [h1]
    rw [hstep, hfree]
    simp
  · intro hnb
    have hfree : (getBookedSlots store).any (fun s =>
        td == s.1 && (tt == s.2) && !(s.1 == a.date && s.2 == a.time)) = false := by
      rw [List.any_eq_false]
      rintro ⟨p1, p2⟩ hp hP
      simp only [Bool.and_eq_true, beq_iff_eq, Bool.not_eq_true'] at hP
      obtain ⟨⟨hP1, hP2⟩, hP3⟩ := hP
      unfold getBookedSlots at hp
      obtain ⟨c, hcf, hcpair⟩ := List.mem_map.mp hp
      obtain ⟨hcmem, hcact⟩ := List.mem_filter.mp hcf
      have hcd : c.date = p1 := congrArg Prod.fst hcpair
      have hct : c.time = p2 := congrArg Prod.snd hcpair
      have hcact' : c.status ≠ "cancelled" := by
        simpa using hcact
      have hcne : c ≠ a := by
        intro hca
        rw [hca] at hcd hct
        rw [← hcd, ← hct] at hP3
        simp at hP3
      exact hnb ⟨c, hcmem, hcne, hcact', by rw [hcd, hP1], by rw [hct, hP2]⟩
    rw [hstep, hfree]
    simp


/-- Claim C4 witness: with appointment 1 (user 1) active on 09:00 AM and
appointment 2 (user 2) active on 10:00 AM of 2026-01-28, user 1's attempt to
move appointment 1 onto 10:00 AM is refused with the conflict text and the
store is unchanged. -/
theorem C4_modify_appointment_spec_witness :
    executeToolCall "modify_appointment"
        [("appointment_id", JVal.num 1), ("new_time", JVal.str "10:00 AM")] seqCtxUser1
        (⟨[], [⟨1, 1, "2026-01-28", "09:00 AM", none, "scheduled"⟩,
               ⟨2, 2, "2026-01-28", "10:00 AM", none, "scheduled"⟩], [], 3, 3⟩ : Store) =
      Except.ok ⟨"Sorry, 2026-01-28 at 10:00 AM is already booked.", seqCtxUser1, false,
        ⟨[], [⟨1, 1, "2026-01-28", "09:00 AM", none, "scheduled"⟩,
              ⟨2, 2, "2026-01-28", "10:00 AM", none, "scheduled"⟩], [], 3, 3⟩⟩ := by
  have h := (C4_modify_appointment_spec
      (⟨[], [⟨1, 1, "2026-01-28", "09:00 AM", none, "scheduled"⟩,
             ⟨2, 2, "2026-01-28", "10:00 AM", none, "scheduled"⟩], [], 3, 3⟩ : Store)
      seqCtxUser1
      [("appointment_id", JVal.num 1), ("new_time", JVal.str "10:00 AM")]
      1 ⟨1, 1, "2026-01-28", "09:00 AM", none, "scheduled"⟩
      (by decide) (by decide) (by decide) (by decide) (by decide)
      (Or.inr rfl) (Or.inl ⟨"10:00 AM", rfl⟩) (by decide)
      "2026-01-28" "10:00 AM" "1" rfl rfl rfl).1
    ⟨⟨2, 2, "2026-01-28", "10:00 AM", none, "scheduled"⟩,
      by decide, by decide, by decide, rfl, rfl⟩
  simpa using h

/-- Claim C7 witness: a modify_appointment call with an entirely empty
argument bag still returns normally. -/
theorem C7_no_throw_except_identify_phone_witness :
    isOkB (executeToolCall "modify_appointment" [] seqCtxUser1 seqStore) = true := by
  obtain ⟨o, ho⟩ := C7_no_throw_except_identify_phone "modify_appointment" [] seqCtxUser1 seqStore
    (fun hc => absurd hc (by decide))
  rw [ho]
  rfl


/-- Membership in a user's appointment listing is membership in the table
with that owner. -/
theorem mem_getAppointmentsByUser (store : Store) (uid : Nat) (a : Appointment) :
    a ∈ getAppointmentsByUser store uid ↔ a ∈ store.appointments ∧ a.userId = uid := by
  unfold getAppointmentsByUser
  simp [List.mem_reverse, List.mem_filter]

/-- find? commutes with a map that does not change the predicate's value. -/
theorem find?_map_pred {α : Type} (f : α → α) (p : α → Bool) (hp : ∀ x, p (f x) = p x) :
    ∀ l : List α, (l.map f).find? p = (l.find? p).map f := by
  intro l
  induction l with
  | nil => rfl
  | cons x t ih =>
    cases hx : p x with
    | true =>
      rw [List.map_cons, List.find?_cons_of_pos _ (by rw [hp x]; exact hx),
        List.find?_cons_of_pos _ hx]
      rfl
    | false =>
      rw [List.map_cons, List.find?_cons_of_neg _ (by rw [hp x, hx]; simp),
        List.find?_cons_of_neg _ (by rw [hx]; simp)]
      exact ih

/-- A status write preserves the id column. -/
theorem setApptStatus_map_id (store : Store) (aid : Nat) (st : String) :
    (setApptStatus store aid st).appointments.map Appointment.id =
      store.appointments.map Appointment.id := by
  unfold setApptStatus
  rw [List.map_map]
  apply List.map_congr_left
  intro a _
  by_cases h : a.id == aid <;> simp [h, Function.comp]

/-- A status write on a different id leaves an appointment row untouched. -/
theorem mem_setApptStatus_of_ne (store : Store) (aid : Nat) (st : String)
    (a : Appointment) (h : a.id ≠ aid) (ha : a ∈ store.appointments) :
    a ∈ (setApptStatus store aid st).appointments := by
  unfold setApptStatus
  exact List.mem_map.mpr ⟨a, ha, by simp [h]⟩

/-- The summarizer's booking loop only appends: the new rows carry the
resolved user and status pending, and the count grows by the number of
appended rows. -/
theorem summaryBookings_shape (uid : Nat) :
    ∀ (reqs : List ApptRequest) (store : Store) (ex : List Appointment) (c : Nat),
      ∃ ts : List Appointment,
        (summaryBookings uid store ex reqs c).1.appointments = store.appointments ++ ts ∧
        (summaryBookings uid store ex reqs c).1.users = store.users ∧
        (summaryBookings uid store ex reqs c).1.sessions = store.sessions ∧
        (summaryBookings uid store ex reqs c).2.2 = c + ts.length ∧
        (∀ x ∈ ts, x.userId = uid ∧ x.status = "pending") := by
  intro reqs
  induction reqs with
  | nil =>
    intro store ex c
    exact ⟨[], by simp [summaryBookings], rfl, rfl, by simp [summaryBookings], by simp⟩
  | cons r rest ih =>
    intro store ex c
    unfold summaryBookings
    cases hd : jsStrOpt r.date with
    | none => exact ih store ex c
    | some d =>
      cases ht : jsStrOpt r.time with
      | none => exact ih store ex c
      | some t =>
        by_cases hdup : isDupReq ex d t
        · simp only [hdup, if_true]
          exact ih store ex c
        · simp only [hdup, Bool.false_eq_true, if_false, createAppointment]
          obtain ⟨ts, h1, h2, h3, h4, h5⟩ := ih
            { store with
                appointments := store.appointments ++
                  [⟨store.nextApptId, uid, d, t,
                    some (jsOrDefault r.description "Appointment booked via voice call"), "pending"⟩],
                nextApptId := store.nextApptId + 1 }
            (ex ++ [⟨store.nextApptId, uid, d, t,
              some (jsOrDefault r.description "Appointment booked via voice call"), "pending"⟩])
            (c + 1)
          refine ⟨⟨store.nextApptId, uid, d, t,
            some (jsOrDefault r.description "Appointment booked via voice call"), "pending"⟩ :: ts,
            ?_, ?_, ?_, ?_, ?_⟩
          · rw [h1]
            simp
          · rw [h2]
          · rw [h3]
          · rw [h4]
            simp
            omega
          · intro x hx
            rcases List.mem_cons.mp hx with hx | hx
            · rw [hx]
              exact ⟨rfl, rfl⟩
            · exact h5 x hx

/-- The booking loop preserves id uniqueness and counter freshness. -/
theorem summaryBookings_wf (uid : Nat) :
    ∀ (reqs : List ApptRequest) (store : Store) (ex : List Appointment) (c : Nat),
      apptIdsNodup store → apptIdsFresh store →
      apptIdsNodup (summaryBookings uid store ex reqs c).1 ∧
        apptIdsFresh (summaryBookings uid store ex reqs c).1 := by
  intro reqs
  induction reqs with
  | nil =>
    intro store ex c h1 h2
    exact ⟨h1, h2⟩
  | cons r rest ih =>
    intro store ex c h1 h2
    unfold summaryBookings
    cases hd : jsStrOpt r.date with
    | none => exact ih store ex c h1 h2
    | some d =>
      cases ht : jsStrOpt r.time with
      | none => exact ih store ex c h1 h2
      | some t =>
        by_cases hdup : isDupReq ex d t
        · simp only [hdup, if_true]
          exact ih store ex c h1 h2
        · simp only [hdup, Bool.false_eq_true, if_false, createAppointment]
          apply ih
          · unfold apptIdsNodup at h1 ⊢
            simp only [List.map_append, List.map_cons, List.map_nil]
            rw [List.nodup_append]
            refine ⟨h1, by simp, ?_⟩
            intro x hx
            simp only [List.mem_singleton]
            obtain ⟨b, hb, hbid⟩ := List.mem_map.mp hx
            intro hcon
            rw [hcon] at hbid
            have := h2 b hb
            simp only [← hbid] at this
            omega
          · unfold apptIdsFresh at h2 ⊢
            intro b hb
            simp only [List.mem_append, List.mem_singleton] at hb
            rcases hb with hb | hb
            · have := h2 b hb
              simp only []
              omega
            · rw [hb]
              simp


/-- After the booking loop, every request with both fields present has a
matching active appointment of the resolved user in the store (either the
duplicate that made it skip, or the row it created). -/
theorem summaryBookings_covers (uid : Nat) :
    ∀ (reqs : List ApptRequest) (store : Store) (ex : List Appointment) (c : Nat),
      (∀ x ∈ ex, x ∈ store.appointments ∧ x.userId = uid) →
      ∀ r ∈ reqs, ∀ rd rt, jsStrOpt r.date = some rd → jsStrOpt r.time = some rt →
        ∃ w ∈ (summaryBookings uid store ex reqs c).1.appointments,
          w.userId = uid ∧ w.status ≠ "cancelled" ∧ w.date = rd ∧
          normalizeTime w.time = normalizeTime rt := by
  intro reqs
  induction reqs with
  | nil =>
    intro store ex c hex r hr
    exact absurd hr (by simp)
  | cons r0 rest ih =>
    intro store ex c hex r hr rd rt hrd hrt
    unfold summaryBookings
    rcases List.mem_cons.mp hr with hreq | hreq
    · subst hreq
      rw [hrd, hrt]
      by_cases hdup : isDupReq ex rd rt
      · simp only [hdup, if_true]
        obtain ⟨x, hx, hpx⟩ := List.any_eq_true.mp hdup
        simp only [Bool.and_eq_true, beq_iff_eq, bne_iff_ne] at hpx
        obtain ⟨⟨hxd, hxt⟩, hxs⟩ := hpx
        obtain ⟨hxmem, hxuid⟩ := hex x hx
        obtain ⟨ts, h1, _, _, _, _⟩ := summaryBookings_shape uid rest store ex c
        exact ⟨x, by rw [h1]; exact List.mem_append_left _ hxmem, hxuid, hxs, hxd, hxt⟩
      · simp only [hdup, Bool.false_eq_true, if_false, createAppointment]
        obtain ⟨ts, h1, _, _, _, _⟩ := summaryBookings_shape uid rest
          { store with
              appointments := store.appointments ++
                [⟨store.nextApptId, uid, rd, rt,
                  some (jsOrDefault r.description "Appointment booked via voice call"), "pending"⟩],
              nextApptId := store.nextApptId + 1 }
          (ex ++ [⟨store.nextApptId, uid, rd, rt,
            some (jsOrDefault r.description "Appointment booked via voice call"), "pending"⟩])
          (c + 1)
        refine ⟨⟨store.nextApptId, uid, rd, rt,
          some (jsOrDefault r.description "Appointment booked via voice call"), "pending"⟩,
          ?_, rfl, by simp, rfl, rfl⟩
        rw [h1]
        apply List.mem_append_left
        simp
    · cases hd0 : jsStrOpt r0.date with
      | none => exact ih store ex c hex r hreq rd rt hrd hrt
      | some d0 =>
        cases ht0 : jsStrOpt r0.time with
        | none => exact ih store ex c hex r hreq rd rt hrd hrt
        | some t0 =>
          by_cases hdup : isDupReq ex d0 t0
          · simp only [hdup, if_true]
            exact ih store ex c hex r hreq rd rt hrd hrt
          · simp only [hdup, Bool.false_eq_true, if_false, createAppointment]
            apply ih _ _ _ _ r hreq rd rt hrd hrt
            intro x hx
            rcases List.mem_append.mp hx with hx | hx
            · obtain ⟨hm, hu⟩ := hex x hx
              exact ⟨List.mem_append_left _ hm, hu⟩
            · simp only [List.mem_singleton] at hx
              subst hx
              refine ⟨List.mem_append_right _ (by simp), rfl⟩

/-- When every request with both fields present already has a duplicate in
the in-memory list, the booking loop is the identity. -/
theorem summaryBookings_skip_all (uid : Nat) :
    ∀ (reqs : List ApptRequest) (store : Store) (ex : List Appointment) (c : Nat),
      (∀ r ∈ reqs, ∀ rd rt, jsStrOpt r.date = some rd → jsStrOpt r.time = some rt →
        isDupReq ex rd rt = true) →
      summaryBookings uid store ex reqs c = (store, ex, c) := by
  intro reqs
  induction reqs with
  | nil =>
    intro store ex c _
    rfl
  | cons r0 rest ih =>
    intro store ex c h
    unfold summaryBookings
    cases hd0 : jsStrOpt r0.date with
    | none => exact ih store ex c (fun r hr => h r (List.mem_cons_of_mem _ hr))
    | some d0 =>
      cases ht0 : jsStrOpt r0.time with
      | none => exact ih store ex c (fun r hr => h r (List.mem_cons_of_mem _ hr))
      | some t0 =>
        have hdup : isDupReq ex d0 t0 = true :=
          h r0 (List.mem_cons_self _ _) d0 t0 hd0 ht0
        simp only [hdup, if_true]
        exact ih store ex c (fun r hr => h r (List.mem_cons_of_mem _ hr))

/-- The cancellation loop only flips statuses: users, sessions, counters and
the number of appointment rows are unchanged. -/
theorem summaryCancels_fields :
    ∀ (cs : List CancelRequest) (store : Store) (ua : List Appointment),
      (summaryCancels store ua cs).users = store.users ∧
      (summaryCancels store ua cs).sessions = store.sessions ∧
      (summaryCancels store ua cs).appointments.length = store.appointments.length ∧
      (summaryCancels store ua cs).nextApptId = store.nextApptId ∧
      (summaryCancels store ua cs).nextUserId = store.nextUserId := by
  intro cs
  induction cs with
  | nil =>
    intro store ua
    exact ⟨rfl, rfl, rfl, rfl, rfl⟩
  | cons c rest ih =>
    intro store ua
    unfold summaryCancels
    cases hf : ua.find? (fun a => cancelMatches c a) with
    | none => exact ih store ua
    | some b =>
      obtain ⟨h1, h2, h3, h4, h5⟩ := ih (setApptStatus store b.id "cancelled") ua
      refine ⟨h1, h2, ?_, h4, h5⟩
      rw [h3]
      unfold setApptStatus
      simp

/-- The cancellation loop preserves appointment-id uniqueness. -/
theorem summaryCancels_nodup :
    ∀ (cs : List CancelRequest) (store : Store) (ua : List Appointment),
      apptIdsNodup store → apptIdsNodup (summaryCancels store ua cs) := by
  intro cs
  induction cs with
  | nil =>
    intro store ua h
    exact h
  | cons c rest ih =>
    intro store ua h
    unfold summaryCancels
    cases hf : ua.find? (fun a => cancelMatches c a) with
    | none => exact ih store ua h
    | some b =>
      apply ih
      unfold apptIdsNodup
      rw [setApptStatus_map_id]
      exact h

/-- An active appointment row whose (date, normalized time) no cancellation
request targets survives the cancellation loop as the very same row. -/
theorem summaryCancels_preserves (a : Appointment) :
    ∀ (cs : List CancelRequest) (store : Store) (ua : List Appointment),
      apptIdsNodup store →
      (∀ x ∈ ua, ∃ y ∈ store.appointments, y.id = x.id ∧ y.date = x.date ∧ y.time = x.time) →
      a ∈ store.appointments →
      (∀ c ∈ cs, ¬(c.date = some a.date ∧
          normalizeTime (jsOrDefault c.time "") = normalizeTime a.time)) →
      a ∈ (summaryCancels store ua cs).appointments := by
  intro cs
  induction cs with
  | nil =>
    intro store ua _ _ ha _
    exact ha
  | cons c rest ih =>
    intro store ua hnodup hR ha hno
    unfold summaryCancels
    cases hf : ua.find? (fun x => cancelMatches c x) with
    | none => exact ih store ua hnodup hR ha (fun c' hc' => hno c' (List.mem_cons_of_mem _ hc'))
    | some b =>
      have hbm := List.find?_some hf
      have hbmem := List.mem_of_find?_eq_some hf
      have hab : a.id ≠ b.id := by
        intro hid
        obtain ⟨y, hy, hyid, hyd, hyt⟩ := hR b hbmem
        have hya : y = a :=
          List.inj_on_of_nodup_map hnodup hy ha (by rw [hyid, ← hid])
        have had : a.date = b.date := by
          rw [← hya]
          exact hyd
        have hat : a.time = b.time := by
          rw [← hya]
          exact hyt
        unfold cancelMatches at hbm
        simp only [Bool.and_eq_true] at hbm
        obtain ⟨⟨hm, hn⟩, _⟩ := hbm
        apply hno c (List.mem_cons_self _ _)
        constructor
        · cases hcd : c.date with
          | none =>
            rw [hcd] at hm
            exact absurd hm (by simp)
          | some dd =>
            rw [hcd] at hm
            have hbdd : b.date = dd := by
              simpa using hm
            rw [had, hbdd]
        · have hnt : normalizeTime b.time = normalizeTime (jsOrDefault c.time "") := by
            simpa using hn
          rw [hat]
          exact hnt.symm
      apply ih (setApptStatus store b.id "cancelled") ua
      · unfold apptIdsNodup
        rw [setApptStatus_map_id]
        exact hnodup
      · intro x hx
        obtain ⟨y, hy, hyid, hyd, hyt⟩ := hR x hx
        by_cases hyb : y.id == b.id
        · refine ⟨{ y with status := "cancelled" }, ?_, hyid, hyd, hyt⟩
          unfold setApptStatus
          exact List.mem_map.mpr ⟨y, hy, by simp [hyb]⟩
        · refine ⟨y, ?_, hyid, hyd, hyt⟩
          unfold setApptStatus
          exact List.mem_map.mpr ⟨y, hy, by simp [hyb]⟩
      · exact mem_setApptStatus_of_ne store b.id "cancelled" a hab ha
      · exact fun c' hc' => hno c' (List.mem_cons_of_mem _ hc')


/-- User resolution touches only the users table. -/
theorem resolveSummaryUser_fields (store : Store) (user0 : Option User) (ph nm : Option String) :
    (resolveSummaryUser store user0 ph nm).2.appointments = store.appointments ∧
    (resolveSummaryUser store user0 ph nm).2.sessions = store.sessions ∧
    (resolveSummaryUser store user0 ph nm).2.nextApptId = store.nextApptId := by
  unfold resolveSummaryUser
  cases user0 with
  | some u =>
    by_cases hc : jsStrTruthy nm && !(jsStrTruthy u.name) <;> simp [hc, updateUserName]
  | none =>
    cases ph with
    | none => exact ⟨rfl, rfl, rfl⟩
    | some p =>
      by_cases hp : p != "" && decide (p.length ≥ 10)
      · simp only [hp, if_true]
        cases hu : getUserByPhoneNumber store p with
        | some eu =>
          by_cases hc : jsStrTruthy nm && !(jsStrTruthy eu.name) <;> simp [hc, updateUserName]
        | none => simp [createUser]
      · simp [hp]

/-- Ending a session maps the session row but keeps its id, userId and
phoneNumber. -/
theorem getCallSession_endCallSession (store : Store) (sid x : Nat) (s : String)
    (b : List SummaryAppt) (p : List String) (tr : Option String) :
    getCallSession (endCallSession store sid s b p tr) x =
      (getCallSession store x).map (fun v =>
        if v.id == sid then
          { v with status := "ended", summary := some s, bookedAppointmentsSnap := b,
                   userPreferencesSnap := p, transcript := tr }
        else v) := by
  unfold getCallSession endCallSession
  exact find?_map_pred _ _ (fun v => by by_cases h : v.id == sid <;> simp [h]) _

/-- The (userId, phoneNumber) projection of a session is untouched by
endCallSession. -/
theorem endCallSession_session_proj (store : Store) (sid x : Nat) (s : String)
    (b : List SummaryAppt) (p : List String) (tr : Option String) :
    (getCallSession (endCallSession store sid s b p tr) x).map
        (fun v => (v.userId, v.phoneNumber)) =
      (getCallSession store x).map (fun v => (v.userId, v.phoneNumber)) := by
  rw [getCallSession_endCallSession]
  cases getCallSession store x with
  | none => rfl
  | some v =>
    by_cases h : v.id = sid <;> simp [h]

/-- Looking a user up by id or phone commutes with a name write (which keeps
both columns). -/
theorem getUser_updateUserName (store : Store) (uid x : Nat) (nm : String) :
    getUser (updateUserName store uid nm) x =
      (getUser store x).map (fun u => if u.id == uid then { u with name := some nm } else u) := by
  unfold getUser updateUserName
  exact find?_map_pred _ _ (fun u => by by_cases h : u.id == uid <;> simp [h]) _

/-- Phone lookup likewise commutes with a name write. -/
theorem getUserByPhoneNumber_updateUserName (store : Store) (uid : Nat) (ph : String) (nm : String) :
    getUserByPhoneNumber (updateUserName store uid nm) ph =
      (getUserByPhoneNumber store ph).map
        (fun u => if u.id == uid then { u with name := some nm } else u) := by
  unfold getUserByPhoneNumber updateUserName
  exact find?_map_pred _ _ (fun u => by by_cases h : u.id == uid <;> simp [h]) _


/-- User lookup by id depends only on the users table. -/
theorem getUser_congr (s1 s2 : Store) (h : s1.users = s2.users) (x : Nat) :
    getUser s1 x = getUser s2 x := by
  unfold getUser
  rw [h]

/-- User lookup by phone depends only on the users table. -/
theorem getUserByPhoneNumber_congr (s1 s2 : Store) (h : s1.users = s2.users) (p : String) :
    getUserByPhoneNumber s1 p = getUserByPhoneNumber s2 p := by
  unfold getUserByPhoneNumber
  rw [h]

/-- Resolution with no session user resolves, run a second time over the
users table the first run left, to the same user id. -/
theorem resolve_stable_nouser (storeA storeB : Store) (ph nm : Option String)
    (hBu : storeB.users = (resolveSummaryUser storeA none ph nm).2.users) :
    Option.map User.id (resolveSummaryUser storeB none ph nm).1 =
      Option.map User.id (resolveSummaryUser storeA none ph nm).1 := by
  cases ph with
  | none =>
    rfl
  | some p =>
    by_cases hp : p != "" && decide (p.length ≥ 10)
    · cases huA : getUserByPhoneNumber storeA p with
      | some eu =>
        by_cases hc : jsStrTruthy nm && !(jsStrTruthy eu.name)
        · have hBu' : storeB.users = (updateUserName storeA eu.id (nm.getD "")).users := by
            rw [hBu]
            unfold resolveSummaryUser
            simp only [hp, if_true, huA, hc]
          have hlookB : getUserByPhoneNumber storeB p =
              some { eu with name := some (nm.getD "") } := by
            rw [getUserByPhoneNumber_congr storeB (updateUserName storeA eu.id (nm.getD "")) hBu' p,
              getUserByPhoneNumber_updateUserName, huA]
            simp
          have hnmt : jsStrTruthy nm = true := by
            revert hc
            cases jsStrTruthy nm <;> simp
          have hgetne : jsStrTruthy (some (nm.getD "")) = true := by
            cases nm with
            | none => rw [jsStrTruthy] at hnmt; exact absurd hnmt (by simp)
            | some v =>
              simpa [jsStrTruthy, Option.getD] using hnmt
          unfold resolveSummaryUser
          simp only [hp, if_true, huA, hc, hlookB, hgetne]
          simp
        · have hBu' : storeB.users = storeA.users := by
            rw [hBu]
            unfold resolveSummaryUser
            simp only [hp, if_true, huA, hc, Bool.false_eq_true, if_false]
          have hlookB : getUserByPhoneNumber storeB p = some eu := by
            rw [getUserByPhoneNumber_congr storeB storeA hBu' p, huA]
          unfold resolveSummaryUser
          simp only [hp, if_true, huA, hc, hlookB, Bool.false_eq_true, if_false]
      | none =>
        have hBu' : storeB.users = storeA.users ++
            [⟨storeA.nextUserId, p, if jsStrTruthy nm then nm else none⟩] := by
          rw [hBu]
          unfold resolveSummaryUser
          simp only [hp, if_true, huA, createUser]
        have hfindA : storeA.users.find? (fun u => u.phoneNumber == p) = none := huA
        have hlookB : getUserByPhoneNumber storeB p =
            some ⟨storeA.nextUserId, p, if jsStrTruthy nm then nm else none⟩ := by
          unfold getUserByPhoneNumber
          rw [hBu', List.find?_append, hfindA]
          simp
        unfold resolveSummaryUser
        simp only [hp, if_true, huA, hlookB, createUser]
        by_cases hnmt : jsStrTruthy nm
        · simp only [hnmt, if_true]
          have : jsStrTruthy (if jsStrTruthy nm = true then nm else none) = true := by
            simp [hnmt]
          simp [this]
        · simp [hnmt]
    · unfold resolveSummaryUser
      simp only [hp, Bool.false_eq_true, if_false]


/-- Resolution with a session user always resolves to that user's id. -/
theorem resolveSummaryUser_some_id (st : Store) (u : User) (ph nm : Option String) :
    Option.map User.id (resolveSummaryUser st (some u) ph nm).1 = some u.id := by
  unfold resolveSummaryUser
  by_cases hc : jsStrTruthy nm && !(jsStrTruthy u.name) <;> simp [hc]

/-- Rerunning the summarizer's user resolution over the store the first
resolution left (same extraction, session core fields unchanged) resolves to
the same user id. -/
theorem resolve_user_id_stable (storeA storeB : Store) (sid : Nat) (d : ExtractedData)
    (hBu : storeB.users =
      (resolveSummaryUser storeA (sessionUserOf storeA (getCallSession storeA sid))
        (summaryPhoneOf (getCallSession storeA sid) d)
        (summaryNameOf (sessionUserOf storeA (getCallSession storeA sid)) d)).2.users)
    (hBsess : (getCallSession storeB sid).map (fun v => (v.userId, v.phoneNumber)) =
      (getCallSession storeA sid).map (fun v => (v.userId, v.phoneNumber))) :
    Option.map User.id
        (resolveSummaryUser storeB (sessionUserOf storeB (getCallSession storeB sid))
          (summaryPhoneOf (getCallSession storeB sid) d)
          (summaryNameOf (sessionUserOf storeB (getCallSession storeB sid)) d)).1 =
      Option.map User.id
        (resolveSummaryUser storeA (sessionUserOf storeA (getCallSession storeA sid))
          (summaryPhoneOf (getCallSession storeA sid) d)
          (summaryNameOf (sessionUserOf storeA (getCallSession storeA sid)) d)).1 := by
  cases hA : getCallSession storeA sid with
  | none =>
    cases hB : getCallSession storeB sid with
    | some sB =>
      rw [hA, hB] at hBsess
      exact absurd hBsess (by simp)
    | none =>
      rw [hA] at hBu
      simp only [sessionUserOf, summaryPhoneOf, summaryNameOf, Option.none_bind] at hBu ⊢
      exact resolve_stable_nouser storeA storeB _ _ hBu
  | some sA =>
    cases hB : getCallSession storeB sid with
    | none =>
      rw [hA, hB] at hBsess
      exact absurd hBsess (by simp)
    | some sB =>
      rw [hA, hB] at hBsess
      simp only [Option.map, Option.some.injEq, Prod.mk.injEq] at hBsess
      obtain ⟨hsid, hsph⟩ := hBsess
      rw [hA] at hBu
      simp only [sessionUserOf, summaryPhoneOf, summaryNameOf, Option.some_bind] at hBu ⊢
      rw [hsid, hsph]
      cases hju : jsUserId sA.userId with
      | none =>
        rw [hju] at hBu
        simp only [Option.none_bind] at hBu ⊢
        exact resolve_stable_nouser storeA storeB _ _ hBu
      | some uid =>
        rw [hju] at hBu
        simp only [Option.some_bind] at hBu ⊢
        cases hgA : getUser storeA uid with
        | some uA =>
          rw [hgA] at hBu
          simp only [Option.some_bind] at hBu ⊢
          have hBid : ∃ uB, getUser storeB uid = some uB ∧ uB.id = uA.id := by
            by_cases hc : jsStrTruthy (jsOrOptStr d.userName uA.name) && !(jsStrTruthy uA.name)
            · have hBu' : storeB.users =
                  (updateUserName storeA uA.id ((jsOrOptStr d.userName uA.name).getD "")).users := by
                rw [hBu]
                unfold resolveSummaryUser
                simp only [hc, if_true]
              refine ⟨{ uA with name := some ((jsOrOptStr d.userName uA.name).getD "") }, ?_, rfl⟩
              rw [getUser_congr storeB
                (updateUserName storeA uA.id ((jsOrOptStr d.userName uA.name).getD "")) hBu' uid,
                getUser_updateUserName, hgA]
              simp
            · have hBu' : storeB.users = storeA.users := by
                rw [hBu]
                unfold resolveSummaryUser
                simp only [hc, Bool.false_eq_true, if_false]
              refine ⟨uA, ?_, rfl⟩
              rw [getUser_congr storeB storeA hBu' uid]
              exact hgA
          obtain ⟨uB, hgB, hid⟩ := hBid
          rw [hgB]
          simp only [Option.some_bind]
          rw [resolveSummaryUser_some_id, resolveSummaryUser_some_id, hid]
        | none =>
          rw [hgA] at hBu
          simp only [Option.none_bind] at hBu ⊢
          cases hph : jsOrOptStr (Option.map digitsOnlyOf d.phoneNumber) sA.phoneNumber with
          | none =>
            rw [hph] at hBu
            have hBu' : storeB.users = storeA.users := hBu
            have hgB : getUser storeB uid = none := by
              rw [getUser_congr storeB storeA hBu' uid]
              exact hgA
            rw [hgB]
            simp only [Option.none_bind]
            exact resolve_stable_nouser storeA storeB none _ hBu
          | some p =>
            rw [hph] at hBu
            by_cases hp : p != "" && decide (p.length ≥ 10)
            · cases huA : getUserByPhoneNumber storeA p with
              | some eu =>
                by_cases hcn : jsStrTruthy (jsOrOptStr d.userName none) && !(jsStrTruthy eu.name)
                · have hBu' : storeB.users =
                      (updateUserName storeA eu.id ((jsOrOptStr d.userName none).getD "")).users := by
                    rw [hBu]
                    unfold resolveSummaryUser
                    simp only [hp, if_true, huA, hcn]
                  have hgB : getUser storeB uid = none := by
                    rw [getUser_congr storeB
                      (updateUserName storeA eu.id ((jsOrOptStr d.userName none).getD "")) hBu' uid,
                      getUser_updateUserName, hgA]
                    rfl
                  rw [hgB]
                  simp only [Option.none_bind]
                  exact resolve_stable_nouser storeA storeB (some p) _ hBu
                · have hBu' : storeB.users = storeA.users := by
                    rw [hBu]
                    unfold resolveSummaryUser
                    simp only [hp, if_true, huA, hcn, Bool.false_eq_true, if_false]
                  have hgB : getUser storeB uid = none := by
                    rw [getUser_congr storeB storeA hBu' uid]
                    exact hgA
                  rw [hgB]
                  simp only [Option.none_bind]
                  exact resolve_stable_nouser storeA storeB (some p) _ hBu
              | none =>
                have hBu' : storeB.users = storeA.users ++
                    [⟨storeA.nextUserId, p,
                      if jsStrTruthy (jsOrOptStr d.userName none) then jsOrOptStr d.userName none
                      else none⟩] := by
                  rw [hBu]
                  unfold resolveSummaryUser
                  simp only [hp, if_true, huA, createUser]
                have hfindA : storeA.users.find? (fun u => u.id == uid) = none := hgA
                by_cases hcol : storeA.nextUserId == uid
                · have hgB : getUser storeB uid = some ⟨storeA.nextUserId, p,
                      if jsStrTruthy (jsOrOptStr d.userName none) then jsOrOptStr d.userName none
                      else none⟩ := by
                    unfold getUser
                    rw [hBu', List.find?_append, hfindA]
                    simp [hcol]
                  rw [hgB]
                  simp only [Option.some_bind]
                  rw [resolveSummaryUser_some_id]
                  unfold resolveSummaryUser
                  simp only [hp, if_true, huA, createUser]
                  simp
                · have hgB : getUser storeB uid = none := by
                    unfold getUser
                    rw [hBu', List.find?_append, hfindA]
                    simp [hcol]
                  rw [hgB]
                  simp only [Option.none_bind]
                  exact resolve_stable_nouser storeA storeB (some p) _ hBu
            · have hBu' : storeB.users = storeA.users := by
                rw [hBu]
                unfold resolveSummaryUser
                simp only [hp, Bool.false_eq_true, if_false]
              have hgB : getUser storeB uid = none := by
                rw [getUser_congr storeB storeA hBu' uid]
                exact hgA
              rw [hgB]
              simp only [Option.none_bind]
              exact resolve_stable_nouser storeA storeB (some p) _ hBu


/-- Session lookup depends only on the sessions table. -/
theorem getCallSession_congr (s1 s2 : Store) (h : s1.sessions = s2.sessions) (x : Nat) :
    getCallSession s1 x = getCallSession s2 x := by
  unfold getCallSession
  rw [h]

/-- The users table after a summarizer main run is the one its user
resolution produced (bookings, cancellations and finalize do not touch it). -/
theorem summaryMain_users (store : Store) (sid : Nat) (tr : Option String)
    (session : Option CallSession) (user0 : Option User) (d : ExtractedData) :
    (summaryMain store sid tr session user0 d).2.users =
      (resolveSummaryUser store user0 (summaryPhoneOf session d) (summaryNameOf user0 d)).2.users := by
  unfold summaryMain
  cases hres : resolveSummaryUser store user0 (summaryPhoneOf session d) (summaryNameOf user0 d) with
  | mk u1 storeR =>
    cases u1 with
    | none => simp only [hres, endCallSession]
    | some u =>
      cases hbk : summaryBookings u.id storeR (getAppointmentsByUser storeR u.id)
          d.appointmentRequests 0 with
      | mk s2 rest =>
        cases rest with
        | mk ex2 c2 =>
          obtain ⟨ts, hApp, hUsers, hSess, hCount, hProps⟩ :=
            summaryBookings_shape u.id d.appointmentRequests storeR
              (getAppointmentsByUser storeR u.id) 0
          rw [hbk] at hUsers
          by_cases hlen : d.appointmentRequests.length > 0 <;>
            by_cases hclen : d.cancellationRequests.length > 0 <;>
              simp only [hres, hbk, hlen, hclen, if_true, if_false, endCallSession]
          · rw [(summaryCancels_fields d.cancellationRequests s2 (getAppointmentsByUser s2 u.id)).1]
            exact hUsers
          · exact hUsers
          · rw [(summaryCancels_fields d.cancellationRequests storeR
              (getAppointmentsByUser storeR u.id)).1]

/-- The (userId, phoneNumber) projection of every session survives a
summarizer main run. -/
theorem summaryMain_sess_proj (store : Store) (sid : Nat) (tr : Option String)
    (session : Option CallSession) (user0 : Option User) (d : ExtractedData) (x : Nat) :
    (getCallSession (summaryMain store sid tr session user0 d).2 x).map
        (fun v => (v.userId, v.phoneNumber)) =
      (getCallSession store x).map (fun v => (v.userId, v.phoneNumber)) := by
  unfold summaryMain
  cases hres : resolveSummaryUser store user0 (summaryPhoneOf session d) (summaryNameOf user0 d) with
  | mk u1 storeR =>
    have hRsess : storeR.sessions = store.sessions := by
      have h := (resolveSummaryUser_fields store user0 (summaryPhoneOf session d)
        (summaryNameOf user0 d)).2.1
      rw [hres] at h
      exact h
    cases u1 with
    | none =>
      simp only [hres]
      rw [endCallSession_session_proj]
      rw [getCallSession_congr _ store hRsess x]
    | some u =>
      cases hbk : summaryBookings u.id storeR (getAppointmentsByUser storeR u.id)
          d.appointmentRequests 0 with
      | mk s2 rest =>
        cases rest with
        | mk ex2 c2 =>
          obtain ⟨ts, hApp, hUsers, hSess, hCount, hProps⟩ :=
            summaryBookings_shape u.id d.appointmentRequests storeR
              (getAppointmentsByUser storeR u.id) 0
          rw [hbk] at hSess
          by_cases hlen : d.appointmentRequests.length > 0 <;>
            by_cases hclen : d.cancellationRequests.length > 0 <;>
              simp only [hres, hbk, hlen, hclen, if_true, if_false]
          · rw [endCallSession_session_proj]
            rw [getCallSession_congr _ store (by
              rw [(summaryCancels_fields d.cancellationRequests s2
                (getAppointmentsByUser s2 u.id)).2.1, hSess, hRsess]) x]
          · rw [endCallSession_session_proj]
            rw [getCallSession_congr _ store (by rw [hSess, hRsess]) x]
          · rw [endCallSession_session_proj]
            rw [getCallSession_congr _ store (by
              rw [(summaryCancels_fields d.cancellationRequests storeR
                (getAppointmentsByUser storeR u.id)).2.1, hRsess]) x]
          · rw [endCallSession_session_proj]
            rw [getCallSession_congr _ store hRsess x]

/-- When every request with both fields present is already a duplicate
against the resolved user's appointments, a summarizer main run creates
nothing: the reported count is 0 and no appointment row is added. -/
theorem summaryMain_all_dup (store : Store) (sid : Nat) (tr : Option String)
    (session : Option CallSession) (user0 : Option User) (d : ExtractedData)
    (hdup : ∀ u, (resolveSummaryUser store user0 (summaryPhoneOf session d)
        (summaryNameOf user0 d)).1 = some u →
      ∀ r ∈ d.appointmentRequests, ∀ rd rt, jsStrOpt r.date = some rd →
        jsStrOpt r.time = some rt →
        isDupReq (getAppointmentsByUser
          (resolveSummaryUser store user0 (summaryPhoneOf session d)
            (summaryNameOf user0 d)).2 u.id) rd rt = true) :
    (summaryMain store sid tr session user0 d).1.newAppointmentsCreated = some 0 ∧
    (summaryMain store sid tr session user0 d).2.appointments.length =
      store.appointments.length := by
  unfold summaryMain
  cases hres : resolveSummaryUser store user0 (summaryPhoneOf session d) (summaryNameOf user0 d) with
  | mk u1 storeR =>
    have hRapp : storeR.appointments = store.appointments := by
      have h := (resolveSummaryUser_fields store user0 (summaryPhoneOf session d)
        (summaryNameOf user0 d)).1
      rw [hres] at h
      exact h
    cases u1 with
    | none =>
      refine ⟨by simp only [hres], ?_⟩
      simp only [hres, endCallSession]
      rw [hRapp]
    | some u =>
      have hskip : summaryBookings u.id storeR (getAppointmentsByUser storeR u.id)
          d.appointmentRequests 0 = (storeR, getAppointmentsByUser storeR u.id, 0) := by
        apply summaryBookings_skip_all
        intro r hr rd rt hrd hrt
        have h := hdup u (by rw [hres]) r hr rd rt hrd hrt
        rw [hres] at h
        exact h
      by_cases hlen : d.appointmentRequests.length > 0 <;>
        by_cases hclen : d.cancellationRequests.length > 0 <;>
          simp only [hres, hskip, hlen, hclen, if_true, if_false, endCallSession]
      · refine ⟨trivial, ?_⟩
        rw [(summaryCancels_fields d.cancellationRequests storeR
          (getAppointmentsByUser storeR u.id)).2.2.1, hRapp]
      · exact ⟨trivial, by rw [hRapp]⟩
      · refine ⟨trivial, ?_⟩
        rw [(summaryCancels_fields d.cancellationRequests storeR
          (getAppointmentsByUser storeR u.id)).2.2.1, hRapp]
      · exact ⟨trivial, by rw [hRapp]⟩


/-- Every extracted booking request with both fields present is covered,
after a summarizer main run whose user resolution succeeded and whose
cancellation requests target none of the booked slots: the final store has
an active appointment of the resolved user on the request's date and
normalized time. -/
theorem summaryMain_coverage (store : Store) (sid : Nat) (tr : Option String)
    (session : Option CallSession) (user0 : Option User) (d : ExtractedData)
    (hN : apptIdsNodup store) (hF : apptIdsFresh store)
    (hno : ∀ c ∈ d.cancellationRequests, ∀ r ∈ d.appointmentRequests, ∀ rd rt,
      jsStrOpt r.date = some rd → jsStrOpt r.time = some rt →
      ¬(c.date = some rd ∧ normalizeTime (jsOrDefault c.time "") = normalizeTime rt)) :
    ∀ u, (resolveSummaryUser store user0 (summaryPhoneOf session d)
        (summaryNameOf user0 d)).1 = some u →
      ∀ r ∈ d.appointmentRequests, ∀ rd rt, jsStrOpt r.date = some rd →
        jsStrOpt r.time = some rt →
        ∃ w ∈ (summaryMain store sid tr session user0 d).2.appointments,
          w.userId = u.id ∧ w.status ≠ "cancelled" ∧ w.date = rd ∧
          normalizeTime w.time = normalizeTime rt := by
  intro u hu r hr rd rt hrd hrt
  unfold summaryMain
  cases hres : resolveSummaryUser store user0 (summaryPhoneOf session d) (summaryNameOf user0 d) with
  | mk u1 storeR =>
    rw [hres] at hu
    have hu1 : u1 = some u := hu
    subst hu1
    have happR : storeR.appointments = store.appointments := by
      have h := (resolveSummaryUser_fields store user0 (summaryPhoneOf session d)
        (summaryNameOf user0 d)).1
      rw [hres] at h
      exact h
    have hnextR : storeR.nextApptId = store.nextApptId := by
      have h := (resolveSummaryUser_fields store user0 (summaryPhoneOf session d)
        (summaryNameOf user0 d)).2.2
      rw [hres] at h
      exact h
    have hNR : apptIdsNodup storeR := by
      unfold apptIdsNodup at hN ⊢
      rw [happR]
      exact hN
    have hFR : apptIdsFresh storeR := by
      intro a ha
      rw [happR] at ha
      rw [hnextR]
      exact hF a ha
    have hlen : d.appointmentRequests.length > 0 :=
      List.length_pos.mpr (List.ne_nil_of_mem hr)
    cases hbk : summaryBookings u.id storeR (getAppointmentsByUser storeR u.id)
        d.appointmentRequests 0 with
    | mk s2 rest =>
      cases rest with
      | mk ex2 c2 =>
        have hexcons : ∀ x ∈ getAppointmentsByUser storeR u.id,
            x ∈ storeR.appointments ∧ x.userId = u.id :=
          fun x hx => (mem_getAppointmentsByUser storeR u.id x).mp hx
        obtain ⟨w, hw, hwuid, hwst, hwdate, hwtime⟩ :=
          summaryBookings_covers u.id d.appointmentRequests storeR
            (getAppointmentsByUser storeR u.id) 0 hexcons r hr rd rt hrd hrt
        rw [hbk] at hw
        have hN2 : apptIdsNodup s2 := by
          have h := (summaryBookings_wf u.id d.appointmentRequests storeR
            (getAppointmentsByUser storeR u.id) 0 hNR hFR).1
          rw [hbk] at h
          exact h
        by_cases hclen : d.cancellationRequests.length > 0 <;>
          simp only [hres, hbk, hlen, hclen, if_true, if_false, endCallSession]
        · refine ⟨w, ?_, hwuid, hwst, hwdate, hwtime⟩
          apply summaryCancels_preserves w d.cancellationRequests s2
            (getAppointmentsByUser s2 u.id) hN2
          · intro x hx
            exact ⟨x, ((mem_getAppointmentsByUser s2 u.id x).mp hx).1, rfl, rfl, rfl⟩
          · exact hw
          · intro c hc
            rw [hwdate, hwtime]
            exact hno c hc r hr rd rt hrd hrt
        · exact ⟨w, hw, hwuid, hwst, hwdate, hwtime⟩

/-- C2 (amended): running the summarizer a second time over the same
extraction creates nothing, provided no cancellation request targets the
same (date, normalized time) as a booking request — the second run reports
newAppointmentsCreated = 0 and adds no appointment rows (the stores are
assumed well-formed: distinct appointment ids, all below the serial
counter). -/
theorem C2_second_run_creates_nothing
    (store : Store) (sid : Nat) (tr tr2 : Option String) (d : ExtractedData)
    (hN : apptIdsNodup store) (hF : apptIdsFresh store)
    (hno : ∀ c ∈ d.cancellationRequests, ∀ r ∈ d.appointmentRequests, ∀ rd rt,
      jsStrOpt r.date = some rd → jsStrOpt r.time = some rt →
      ¬(c.date = some rd ∧ normalizeTime (jsOrDefault c.time "") = normalizeTime rt)) :
    (generateCallSummary (generateCallSummary store sid tr (ExtractionOutcome.parsed d)).2 sid tr2
        (ExtractionOutcome.parsed d)).1.newAppointmentsCreated = some 0 ∧
    (generateCallSummary (generateCallSummary store sid tr (ExtractionOutcome.parsed d)).2 sid tr2
        (ExtractionOutcome.parsed d)).2.appointments.length =
      (generateCallSummary store sid tr (ExtractionOutcome.parsed d)).2.appointments.length := by
  have hrun1 : generateCallSummary store sid tr (ExtractionOutcome.parsed d) =
      summaryMain store sid tr (getCallSession store sid)
        (sessionUserOf store (getCallSession store sid)) d := rfl
  have hBu : (generateCallSummary store sid tr (ExtractionOutcome.parsed d)).2.users =
      (resolveSummaryUser store (sessionUserOf store (getCallSession store sid))
        (summaryPhoneOf (getCallSession store sid) d)
        (summaryNameOf (sessionUserOf store (getCallSession store sid)) d)).2.users := by
    rw [hrun1]
    exact summaryMain_users store sid tr (getCallSession store sid)
      (sessionUserOf store (getCallSession store sid)) d
  have hBsess : (getCallSession (generateCallSummary store sid tr
        (ExtractionOutcome.parsed d)).2 sid).map (fun v => (v.userId, v.phoneNumber)) =
      (getCallSession store sid).map (fun v => (v.userId, v.phoneNumber)) := by
    rw [hrun1]
    exact summaryMain_sess_proj store sid tr (getCallSession store sid)
      (sessionUserOf store (getCallSession store sid)) d sid
  have hstable := resolve_user_id_stable store
    (generateCallSummary store sid tr (ExtractionOutcome.parsed d)).2 sid d hBu hBsess
  have hrun2 : generateCallSummary
      (generateCallSummary store sid tr (ExtractionOutcome.parsed d)).2 sid tr2
      (ExtractionOutcome.parsed d) =
      summaryMain (generateCallSummary store sid tr (ExtractionOutcome.parsed d)).2 sid tr2
        (getCallSession (generateCallSummary store sid tr (ExtractionOutcome.parsed d)).2 sid)
        (sessionUserOf (generateCallSummary store sid tr (ExtractionOutcome.parsed d)).2
          (getCallSession (generateCallSummary store sid tr
            (ExtractionOutcome.parsed d)).2 sid)) d := rfl
  rw [hrun2]
  apply summaryMain_all_dup
  intro u2 hres2 r hr rd rt hrd hrt
  have hmap2 : Option.map User.id
      (resolveSummaryUser (generateCallSummary store sid tr (ExtractionOutcome.parsed d)).2
        (sessionUserOf (generateCallSummary store sid tr (ExtractionOutcome.parsed d)).2
          (getCallSession (generateCallSummary store sid tr
            (ExtractionOutcome.parsed d)).2 sid))
        (summaryPhoneOf (getCallSession (generateCallSummary store sid tr
          (ExtractionOutcome.parsed d)).2 sid) d)
        (summaryNameOf (sessionUserOf (generateCallSummary store sid tr
            (ExtractionOutcome.parsed d)).2
          (getCallSession (generateCallSummary store sid tr
            (ExtractionOutcome.parsed d)).2 sid)) d)).1 = some u2.id := by
    rw [hres2]
    rfl
  rw [hstable] at hmap2
  obtain ⟨u1v, hu1v, hid⟩ := Option.map_eq_some'.mp hmap2
  have hcov := summaryMain_coverage store sid tr (getCallSession store sid)
    (sessionUserOf store (getCallSession store sid)) d hN hF hno u1v hu1v r hr rd rt hrd hrt
  obtain ⟨w, hw, hwuid, hwst, hwdate, hwtime⟩ := hcov
  rw [← hrun1] at hw
  have happB := (resolveSummaryUser_fields
    (generateCallSummary store sid tr (ExtractionOutcome.parsed d)).2
    (sessionUserOf (generateCallSummary store sid tr (ExtractionOutcome.parsed d)).2
      (getCallSession (generateCallSummary store sid tr
        (ExtractionOutcome.parsed d)).2 sid))
    (summaryPhoneOf (getCallSession (generateCallSummary store sid tr
      (ExtractionOutcome.parsed d)).2 sid) d)
    (summaryNameOf (sessionUserOf (generateCallSummary store sid tr
        (ExtractionOutcome.parsed d)).2
      (getCallSession (generateCallSummary store sid tr
        (ExtractionOutcome.parsed d)).2 sid)) d)).1
  unfold isDupReq
  rw [List.any_eq_true]
  refine ⟨w, ?_, ?_⟩
  · rw [mem_getAppointmentsByUser]
    refine ⟨?_, ?_⟩
    · rw [happB]
      exact hw
    · rw [hwuid]
      exact hid
  · simp only [Bool.and_eq_true, beq_iff_eq, bne_iff_ne]
    exact ⟨⟨hwdate, hwtime⟩, hwst⟩

/-- Witness for C2: on the one-user fixture store, with an extraction that
books one slot and cancels nothing, the second summarizer run creates
zero appointments. -/
theorem C2_second_run_creates_nothing_witness :
    apptIdsNodup sumStore ∧ apptIdsFresh sumStore ∧
    (generateCallSummary (generateCallSummary sumStore 7 (some "transcript")
        (ExtractionOutcome.parsed c2wExtraction)).2 7 (some "transcript")
        (ExtractionOutcome.parsed c2wExtraction)).1.newAppointmentsCreated = some 0 :=
  ⟨by unfold apptIdsNodup; decide, by unfold apptIdsFresh; decide,
    (C2_second_run_creates_nothing sumStore 7 (some "transcript") (some "transcript")
      c2wExtraction (by unfold apptIdsNodup; decide) (by unfold apptIdsFresh; decide)
      (by intro c hc; exact absurd hc (by simp [c2wExtraction]))).1⟩


/-- Finalizing a call ends exactly the session with the given id, storing
the summary, transcript, preference snapshot and appointment snapshot. -/
theorem endCallSession_session_facts (store : Store) (sid : Nat) (summary : String)
    (booked : List SummaryAppt) (prefs : List String) (tr : Option String) :
    ∀ s ∈ (endCallSession store sid summary booked prefs tr).sessions,
      s.id = sid → s.status = "ended" ∧ s.userPreferencesSnap = prefs ∧
        s.summary = some summary ∧ s.transcript = tr ∧ s.bookedAppointmentsSnap = booked := by
  unfold endCallSession
  intro s hs hid
  simp only [List.mem_map] at hs
  obtain ⟨x, hx, hxs⟩ := hs
  by_cases hxid : x.id == sid
  · simp only [hxid, if_true] at hxs
    subst hxs
    exact ⟨rfl, rfl, rfl, rfl, rfl⟩
  · simp only [hxid, if_false] at hxs
    subst hxs
    simp only [beq_iff_eq] at hxid
    exact absurd hid hxid

/-- A summarizer main run over the default (inner-catch) extraction — no
requests, generic summary — still finalizes: appointments untouched, zero
created, empty preferences, generic summary, and the session with the given
id is ended with the snapshot fields of the payload. -/
theorem summaryMain_default_facts (store : Store) (sid : Nat) (tr : Option String)
    (session : Option CallSession) (user0 : Option User) :
    (summaryMain store sid tr session user0 defaultExtracted).2.appointments =
      store.appointments ∧
    (summaryMain store sid tr session user0 defaultExtracted).1.userPreferences = [] ∧
    (summaryMain store sid tr session user0 defaultExtracted).1.newAppointmentsCreated =
      some 0 ∧
    (summaryMain store sid tr session user0 defaultExtracted).1.summary = "Call completed." ∧
    (∀ s ∈ (summaryMain store sid tr session user0 defaultExtracted).2.sessions,
      s.id = sid → s.status = "ended" ∧ s.userPreferencesSnap = [] ∧
        s.summary = some "Call completed." ∧ s.transcript = tr ∧
        s.bookedAppointmentsSnap =
          (summaryMain store sid tr session user0 defaultExtracted).1.appointments) := by
  unfold summaryMain
  cases hres : resolveSummaryUser store user0 (summaryPhoneOf session defaultExtracted)
      (summaryNameOf user0 defaultExtracted) with
  | mk u1 storeR =>
    have happR : storeR.appointments = store.appointments := by
      have h := (resolveSummaryUser_fields store user0 (summaryPhoneOf session defaultExtracted)
        (summaryNameOf user0 defaultExtracted)).1
      rw [hres] at h
      exact h
    cases u1 with
    | none =>
      simp only [hres]
      refine ⟨?_, ?_, ?_, ?_, ?_⟩
      · exact happR
      · trivial
      · trivial
      · trivial
      · exact endCallSession_session_facts storeR sid ("Call completed." ++ "") [] [] tr
    | some u =>
      simp only [hres]
      refine ⟨?_, ?_, ?_, ?_, ?_⟩
      · exact happR
      · trivial
      · trivial
      · trivial
      · exact endCallSession_session_facts storeR sid ("Call completed." ++ "")
          (List.map toSummaryAppt (getAppointmentsByUser storeR u.id)) [] tr

/-- Claim C9: whichever way the summarizer's extraction fails — the LLM
call throws (outer catch) or its structured output is malformed (inner
catch, default extraction data) — the session is still finalized.  On an
LLM failure the store's appointments and users are untouched, the returned
preferences are empty, no creation count is reported, the summary is a
generic fallback text, and every session with the given id ends with status
ended, empty preference snapshot, that summary, the transcript, and the
snapshot of the already existing appointments.  On malformed output the
appointments are likewise untouched, zero creations are reported, the
preferences are empty, the summary is the generic "Call completed.", and
every session with the given id is ended the same way. -/
theorem C9_summarizer_failure_still_finalizes :
    ∀ (store : Store) (sid : Nat) (transcript : Option String),
      (generateCallSummary store sid transcript ExtractionOutcome.llmFailure).2.appointments =
        store.appointments ∧
      (generateCallSummary store sid transcript ExtractionOutcome.llmFailure).2.users =
        store.users ∧
      (generateCallSummary store sid transcript ExtractionOutcome.llmFailure).1.userPreferences = [] ∧
      (generateCallSummary store sid transcript ExtractionOutcome.llmFailure).1.newAppointmentsCreated =
        none ∧
      ((generateCallSummary store sid transcript ExtractionOutcome.llmFailure).1.summary =
          "Call completed. Transcript has been saved." ∨
        (generateCallSummary store sid transcript ExtractionOutcome.llmFailure).1.summary =
          "Call completed.") ∧
      (∀ s ∈ (generateCallSummary store sid transcript ExtractionOutcome.llmFailure).2.sessions,
        s.id = sid →
          s.status = "ended" ∧
          s.userPreferencesSnap = [] ∧
          s.summary =
            some (generateCallSummary store sid transcript ExtractionOutcome.llmFailure).1.summary ∧
          s.transcript = transcript ∧
          s.bookedAppointmentsSnap =
            (generateCallSummary store sid transcript ExtractionOutcome.llmFailure).1.appointments) ∧
      (generateCallSummary store sid transcript ExtractionOutcome.malformed).2.appointments =
        store.appointments ∧
      (generateCallSummary store sid transcript ExtractionOutcome.malformed).1.userPreferences = [] ∧
      (generateCallSummary store sid transcript ExtractionOutcome.malformed).1.newAppointmentsCreated =
        some 0 ∧
      (generateCallSummary store sid transcript ExtractionOutcome.malformed).1.summary =
        "Call completed." ∧
      (∀ s ∈ (generateCallSummary store sid transcript ExtractionOutcome.malformed).2.sessions,
        s.id = sid →
          s.status = "ended" ∧
          s.userPreferencesSnap = [] ∧
          s.summary = some "Call completed." ∧
          s.transcript = transcript ∧
          s.bookedAppointmentsSnap =
            (generateCallSummary store sid transcript ExtractionOutcome.malformed).1.appointments) := by
  intro store sid transcript
  have hA := summaryFallback_facts store sid transcript (getCallSession store sid)
    (sessionUserOf store (getCallSession store sid))
  have hB := summaryMain_default_facts store sid transcript (getCallSession store sid)
    (sessionUserOf store (getCallSession store sid))
  exact ⟨hA.1, hA.2.1, hA.2.2.1, hA.2.2.2.1, hA.2.2.2.2.1, hA.2.2.2.2.2,
    hB.1, hB.2.1, hB.2.2.1, hB.2.2.2.1, hB.2.2.2.2⟩

/-- Claim C9 witness: both failure modes at a concrete store and session —
the LLM-failure run reports no creation count and the malformed-output run
reports zero creations, and neither touches the appointments. -/
theorem C9_summarizer_failure_still_finalizes_witness :
    (generateCallSummary sumStore 7 (some "t") ExtractionOutcome.llmFailure).2.appointments =
      sumStore.appointments ∧
    (generateCallSummary sumStore 7 (some "t") ExtractionOutcome.llmFailure).1.newAppointmentsCreated =
      none ∧
    (generateCallSummary sumStore 7 (some "t") ExtractionOutcome.malformed).2.appointments =
      sumStore.appointments ∧
    (generateCallSummary sumStore 7 (some "t") ExtractionOutcome.malformed).1.newAppointmentsCreated =
      some 0 := by
  have h := C9_summarizer_failure_still_finalizes sumStore 7 (some "t")
  exact ⟨h.1, h.2.2.2.1, h.2.2.2.2.2.2.1, h.2.2.2.2.2.2.2.2.1⟩

end VoiceAgent
